import Mathlib

/-!
Verification development for the LOOKER marketing-analytics dashboard.

We give a shallow embedding of the repository's reconciliation and
analysis code (the csvProcessor string utilities, the spend-CSV fold,
the `processDashboardData` reconciliation engine, the
`aggregateAdsFromMongo` variant, and the `buildQualityAnalysis` /
`analyzeFactors` quality pipeline) and prove or refute the spec's
claims about them.

Conventions of the embedding:
* JavaScript numbers are modelled as exact rationals (`Rat`) for money
  and as `Int` for counts; `x.toFixed(2)` rounding is modelled by
  `round2`.
* JavaScript objects used as ordered string-keyed dictionaries are
  modelled as association lists (`List (String × α)`) with first-match
  lookup, in-place update, and append-on-create, matching JS insertion
  order semantics.
* `null`/`undefined` string arguments are modelled with `Option String`.
-/

/- The Batteries rational-number operations are `@[irreducible]`, which
blocks `decide`/`rfl` evaluation of the concrete ledger computations
below; restore normal reducibility (this does not change any
definitional content). -/
set_option allowUnsafeReducibility true in
attribute [semireducible] Rat.add Rat.mul Rat.inv Rat.sub Rat.ofScientific Rat.normalize

namespace Looker

/-! ## JavaScript string primitives -/

/-- The JS `\s` regex class / `String.prototype.trim` whitespace set
(ASCII whitespace plus the Unicode space separators matched by `\s`). -/
def isJsWs (c : Char) : Bool :=
  c = ' ' || c = '\t' || c = '\n' || c = '\r' || c.val = 11 || c.val = 12 ||
  c.val = 0xA0 || c.val = 0x1680 || (0x2000 ≤ c.val && c.val ≤ 0x200A) ||
  c.val = 0x2028 || c.val = 0x2029 || c.val = 0x202F || c.val = 0x205F ||
  c.val = 0x3000 || c.val = 0xFEFF

/-- `String.prototype.trim` on a character list. -/
def trimChars (l : List Char) : List Char :=
  ((l.dropWhile isJsWs).reverse.dropWhile isJsWs).reverse

/-- JS `str.trim()`. -/
def jsTrim (s : String) : String := String.mk (trimChars s.data)

/-- Helper for `collapseWs`: the flag records whether the previous
character was whitespace (already emitted as a single space). -/
def collapseWsAux : Bool → List Char → List Char
  | _, [] => []
  | prevWs, c :: rest =>
    if isJsWs c then
      if prevWs then collapseWsAux true rest
      else ' ' :: collapseWsAux true rest
    else c :: collapseWsAux false rest

/-- JS `str.replace(/\s+/g, ' ')`: every maximal whitespace run becomes
a single space. -/
def collapseWs (l : List Char) : List Char := collapseWsAux false l

/-- JS `String.prototype.toLowerCase` restricted to the code points the
pipeline can meet: ASCII letters and the Latin-1 accented capitals.
Other characters are left unchanged (they are deleted by the later
`[^a-z0-9\s\-_]` filter anyway, so this restriction is invisible to the
normalizer's output). -/
def jsLowerChar (c : Char) : Char :=
  if 'A' ≤ c ∧ c ≤ 'Z' then Char.ofNat (c.toNat + 32)
  else if 0xC0 ≤ c.toNat ∧ c.toNat ≤ 0xDE ∧ c.toNat ≠ 0xD7 then Char.ofNat (c.toNat + 32)
  else c

/-- Unicode NFD decomposition, modelled for the Latin-1 accented
letters (the only decomposables the business data contains); all other
characters are atomic. The combining marks produced lie in
U+0300–U+036F, exactly the range the source strips. -/
def nfdChar (c : Char) : List Char :=
  let comb : Nat → Char := Char.ofNat
  match c with
  | 'á' => ['a', comb 0x301] | 'é' => ['e', comb 0x301] | 'í' => ['i', comb 0x301]
  | 'ó' => ['o', comb 0x301] | 'ú' => ['u', comb 0x301] | 'ñ' => ['n', comb 0x303]
  | 'à' => ['a', comb 0x300] | 'è' => ['e', comb 0x300] | 'ì' => ['i', comb 0x300]
  | 'ò' => ['o', comb 0x300] | 'ù' => ['u', comb 0x300]
  | 'ä' => ['a', comb 0x308] | 'ë' => ['e', comb 0x308] | 'ï' => ['i', comb 0x308]
  | 'ö' => ['o', comb 0x308] | 'ü' => ['u', comb 0x308]
  | 'â' => ['a', comb 0x302] | 'ê' => ['e', comb 0x302] | 'î' => ['i', comb 0x302]
  | 'ô' => ['o', comb 0x302] | 'û' => ['u', comb 0x302] | 'ç' => ['c', comb 0x327]
  | _ => [c]

/-- `normalized.normalize('NFD')` over a character list. -/
def nfdList (l : List Char) : List Char := l.flatMap nfdChar

/-- A character in the combining-mark range removed by
`replace(/[̀-ͯ]/g, '')`. -/
def isCombiningMark (c : Char) : Bool := 0x300 ≤ c.val && c.val ≤ 0x36F

/-- A character kept by `replace(/[^a-z0-9\s\-_]/g, '')`. -/
def keepChar (c : Char) : Bool :=
  ('a' ≤ c && c ≤ 'z') || ('0' ≤ c && c ≤ '9') || isJsWs c || c = '-' || c = '_'

/-- No two adjacent whitespace characters. -/
def noTwoSpaces : List Char → Bool
  | c1 :: c2 :: rest => (!(isJsWs c1 && isJsWs c2)) && noTwoSpaces (c2 :: rest)
  | _ => true

/-- The first character (if any) is not whitespace. -/
def headNotWs : List Char → Bool
  | [] => true
  | c :: _ => !isJsWs c

/-- The character alphabet of a normalized name: lowercase ASCII
letters, digits, `-`, `_` and the single space. -/
def GoodCharP (c : Char) : Prop :=
  (97 ≤ c.toNat ∧ c.toNat ≤ 122) ∨ (48 ≤ c.toNat ∧ c.toNat ≤ 57) ∨
    c.toNat = 45 ∨ c.toNat = 95 ∨ c.toNat = 32

instance (c : Char) : Decidable (GoodCharP c) := by
  unfold GoodCharP
  infer_instance

/-! ## cleanDisplayName -/

/-- If `pre` is a prefix of `l`, return the remainder. -/
def matchPrefix : List Char → List Char → Option (List Char)
  | [], l => some l
  | _ :: _, [] => none
  | p :: ps, c :: cs => if p = c then matchPrefix ps cs else none

/-- `str.replace(/^\{\{adsutm_content=/, '')`. -/
def stripUtmPrefix (l : List Char) : List Char :=
  match matchPrefix "\x7b\x7badsutm_content=".data l with
  | some rest => rest
  | none => l

/-- `str.replace(/^\{\{adset\.name\}\}$/, '')` (fully anchored, so it
only fires when the whole string is that literal). -/
def stripAdsetName (l : List Char) : List Char :=
  if l = "\x7b\x7badset.name\x7d\x7d".data then [] else l

/-- `str.replace(/^\{\{([^}]*)\}\}/, '')`: strip a leading
`{{…}}` token whose body contains no closing brace. -/
def stripLeadingBraceToken (l : List Char) : List Char :=
  match matchPrefix ['\x7b', '\x7b'] l with
  | none => l
  | some rest =>
    let body := rest.takeWhile (fun c => c ≠ '\x7d')
    let after := rest.drop body.length
    match after with
    | '\x7d' :: '\x7d' :: tail => tail
    | _ => l

/-- Case-insensitive (ASCII) suffix test: does `l` end with `"." ++ ext`? -/
def endsWithExt (ext : List Char) (l : List Char) : Bool :=
  decide (((('.' :: ext).map jsLowerChar).reverse).isPrefixOf ((l.map jsLowerChar).reverse))

/-- `str.replace(/\.(e₁|e₂|…)$/i, '')` for a list of extensions. -/
def stripExtOnce (exts : List (List Char)) (l : List Char) : List Char :=
  match exts.find? (fun e => endsWithExt e l) with
  | some e => l.take (l.length - (e.length + 1))
  | none => l

/-- `str.replace(/\{\{|\}\}|=/g, '')`: a single left-to-right scan
removing non-overlapping `{{`, `}}` and `=` occurrences. -/
def removeBraceEq : List Char → List Char
  | [] => []
  | [c] => if c = '=' then [] else [c]
  | c1 :: c2 :: rest =>
    if (c1 = '\x7b' && c2 = '\x7b') || (c1 = '\x7d' && c2 = '\x7d') then
      removeBraceEq rest
    else if c1 = '=' then removeBraceEq (c2 :: rest)
    else c1 :: removeBraceEq (c2 :: rest)

/-- `cleanDisplayName` from `csvProcessor` (src/unnamed/part_003 lines
3–20).  `none` stands for the JS `null`/`undefined` arguments; note the
source's `if (!name) return ''` also returns the empty string for an
empty-string input. -/
def cleanDisplayName (name : Option String) : String :=
  match name with
  | none => ""
  | some s =>
    if s = "" then ""
    else
      let l1 := stripUtmPrefix s.data
      let l2 := stripAdsetName l1
      let l3 := stripLeadingBraceToken l2
      let l4 := stripExtOnce ["mp4".data, "mov".data, "avi".data, "mkv".data, "wmv".data] l3
      let l5 := stripExtOnce ["jpg".data, "jpeg".data, "png".data, "gif".data, "webp".data] l4
      let l6 := removeBraceEq l5
      let t := String.mk (trimChars l6)
      if t = "-" ∨ t = "" ∨ t = "undefined" then "[Sin nombre]" else t

/-! ## normalizeAdName -/

/-- The post-cleaning pipeline of `normalizeAdName`: lowercase, NFD,
strip combining marks, delete characters outside `[a-z0-9\s\-_]`,
collapse whitespace runs, trim. -/
def normPost (s : String) : String :=
  String.mk (trimChars (collapseWs (((nfdList (s.data.map jsLowerChar)).filter
    (fun c => !isCombiningMark c)).filter keepChar)))

/-- `normalizeAdName` from `csvProcessor` (src/unnamed/part_003 lines
22–38). -/
def normalizeAdName (name : Option String) : String :=
  let cleaned := cleanDisplayName name
  if cleaned = "" ∨ cleaned = "[Sin nombre]" then "" else normPost cleaned

/-- Shorthand for normalizing a plain (non-null) JS string. -/
def normS (s : String) : String := normalizeAdName (some s)

/-- Shorthand for cleaning a plain (non-null) JS string. -/
def cleanS (s : String) : String := cleanDisplayName (some s)

/-! ## JS objects as ordered association lists -/

/-- JS `obj[k]` read: first-match lookup. -/
def alookup {α : Type} : List (String × α) → String → Option α
  | [], _ => none
  | (k, v) :: rest, key => if k = key then some v else alookup rest key

/-- In-place update of the (first) entry at `key`; identity when absent. -/
def aupdate {α : Type} : List (String × α) → String → (α → α) → List (String × α)
  | [], _, _ => []
  | (k, v) :: rest, key, f =>
    if k = key then (k, f v) :: rest else (k, v) :: aupdate rest key f

/-- JS `obj[k] = v`: overwrite when present, append when absent. -/
def aset {α : Type} : List (String × α) → String → α → List (String × α)
  | [], key, v => [(key, v)]
  | (k, w) :: rest, key, v =>
    if k = key then (k, v) :: rest else (k, w) :: aset rest key v

/-! ## JS numeric primitives -/

/-- `str.replace(',', '.')`: a string pattern replaces only the first
occurrence. -/
def jsReplaceFirstComma : List Char → List Char
  | [] => []
  | c :: rest => if c = ',' then '.' :: rest else c :: jsReplaceFirstComma rest

/-- Digit run to a natural number. -/
def digitsToNat (l : List Char) : Nat :=
  l.foldl (fun n c => n * 10 + (c.toNat - 48)) 0

/-- JS `parseFloat`, modelled for plain decimal literals (optional
leading whitespace, optional sign, digits with at most one point).
Exponent forms and `Infinity`, which spend exports never contain, parse
to `none` (= NaN, which the source maps to 0 via `|| 0`). -/
def parseFloatQ (l : List Char) : Option Rat :=
  let l1 := l.dropWhile isJsWs
  let signed : Rat × List Char :=
    match l1 with
    | '-' :: rest => (-1, rest)
    | '+' :: rest => (1, rest)
    | _ => (1, l1)
  let intPart := signed.2.takeWhile Char.isDigit
  let rest2 := signed.2.drop intPart.length
  let fracPart :=
    match rest2 with
    | '.' :: r2 => r2.takeWhile Char.isDigit
    | _ => []
  if intPart.isEmpty && fracPart.isEmpty then none
  else some (signed.1 * ((digitsToNat intPart : Rat) +
    (digitsToNat fracPart : Rat) / ((10 : Rat) ^ fracPart.length)))

/-- JS `parseFloat(s) || 0`. -/
def parseFloatOr0 (s : String) : Rat := (parseFloatQ s.data).getD 0

/-- `parseFloat(Number(x).toFixed(2))`: round to 2 decimal places
(ties away from the floor side, as `toFixed` does for the exact values
arising here). -/
def round2 (q : Rat) : Rat := ((q * 100 + 1 / 2).floor : Rat) / 100

/-! ## Spend Ledger Builder (`processSpendCSV`, src/unnamed/part_003
lines 60–116)

The CSV tokenizing itself is done by the external Papa library; the
embedding starts from its output, the list of header-keyed rows. -/

/-- One parsed CSV row (`CSVDataRow`); `none` models an absent column. -/
structure CSVDataRow where
  campaignName : Option String
  adSetName : Option String
  adName : Option String
  amountSpent : Option String
  adId : Option String
deriving Repr, DecidableEq

/-- `SpendSegmentation` from `csvProcessor`. -/
structure SpendSegmentation where
  campaign_name : String
  ad_set_name : String
  ad_name_original : String
  ad_name_normalized : String
  ad_id : String
  segmentation_name : String
  spend : Rat
deriving Repr, DecidableEq

/-- The two accumulators of the `processSpendCSV` loop. -/
structure SpendState where
  segmentations : List (String × SpendSegmentation)
  mapping : List (String × String)
deriving Repr, DecidableEq

/-- `data['x']?.trim() || ''`. -/
def optTrim (o : Option String) : String :=
  match o with
  | none => ""
  | some s => jsTrim s

/-- The body of the `for (const data of results.data)` loop of
`processSpendCSV` for one row. -/
def processSpendRow (exchangeRate : Rat) (st : SpendState) (data : CSVDataRow) :
    SpendState :=
  let campaign_name := optTrim data.campaignName
  let ad_set_name := optTrim data.adSetName
  let ad_name_original := optTrim data.adName
  let ad_id := optTrim data.adId
  let amountStr := match data.amountSpent with
    | none => "0"
    | some s => if s = "" then "0" else s
  let amount0 := parseFloatOr0 (String.mk (jsReplaceFirstComma amountStr.data))
  let amount := if 0 < exchangeRate then amount0 / exchangeRate else amount0
  if campaign_name ≠ "" ∧ ad_set_name ≠ "" ∧ ad_name_original ≠ "" then
    let ad_name_normalized := normS ad_name_original
    let segmentation_name := ad_set_name
    let unique_key := ad_name_normalized ++ "|" ++ normS segmentation_name
    let st1 :=
      match alookup st.segmentations unique_key with
      | some _ => st
      | none =>
        let fresh : SpendSegmentation :=
          { campaign_name := campaign_name, ad_set_name := ad_set_name,
            ad_name_original := ad_name_original,
            ad_name_normalized := ad_name_normalized, ad_id := ad_id,
            segmentation_name := segmentation_name, spend := 0 }
        let mapping1 :=
          if (alookup st.mapping ad_name_normalized).getD "" = "" then
            aset st.mapping ad_name_normalized ad_name_original
          else st.mapping
        { segmentations := st.segmentations ++ [(unique_key, fresh)],
          mapping := mapping1 }
    { st1 with segmentations :=
        (aupdate st1.segmentations unique_key
          (fun seg => { seg with spend := seg.spend + amount })) }
  else st

/-- The full `processSpendCSV` accumulation over the parsed rows. -/
def processSpendRows (rows : List CSVDataRow) (exchangeRate : Rat) : SpendState :=
  rows.foldl (processSpendRow exchangeRate) ⟨[], []⟩

/-! ## Reconciliation Engine (`processDashboardData`,
src/src/app/actions/dashboardActions.ts lines 525–759)

The SQL layer (`getRevenueData`) delivers grouped rows already carrying
`ANUNCIO_NORMALIZED = normalizeAdName(ANUNCIO)` and
`SEGMENTACION_NORMALIZED = normalizeAdName(SEGMENTACION)`; the
embedding recomputes them from the raw fields at the use sites, exactly
as that composition does. -/

/-- One grouped revenue row (`getRevenueData` output). -/
structure RevRow where
  ANUNCIO : String
  SEGMENTACION : String
  CAMPANA : String
  AD_ID : String
  total_leads : Int
  total_sales : Int
  total_revenue : Rat
deriving Repr, DecidableEq

/-- A `SegmentationEntry` of the interactive ledger.  JS attaches
`processed_bd_keys` lazily and builds the dedup signature as the string
`adNorm|segNorm|revenue|leads`; since normalized names contain no `|`
and JS number printing is injective, the signature is modelled as the
component tuple. -/
structure Seg where
  name : String
  campaign_name : String
  ad_id : String
  revenue : Rat
  leads : Int
  sales : Int
  spend_allocated : Rat
  profit : Rat
  cpl : Rat
  conversion_rate : Rat
  processed_bd_keys : List (String × String × Rat × Int)
deriving Repr, DecidableEq

/-- An `AdLedgerEntry` of the interactive ledger. -/
structure AdEntry where
  ad_name_display : String
  total_revenue : Rat
  total_leads : Int
  total_sales : Int
  total_spend : Rat
  roas : Rat
  profit : Rat
  segmentations : List Seg
deriving Repr, DecidableEq

/-- The `ads` accumulator object. -/
abbrev AdsMap : Type := List (String × AdEntry)

/-- Organic query result (`getOrganicSales`). -/
structure OrganicData where
  total_sales : Int
  total_revenue : Rat
deriving Repr, DecidableEq

/-- The single synthetic segmentation of the organic entry. -/
def organicSeg (od : OrganicData) : Seg :=
  { name := "Orgánica", campaign_name := "Orgánica", ad_id := "",
    revenue := od.total_revenue, leads := 0, sales := od.total_sales,
    spend_allocated := 0, profit := od.total_revenue, cpl := 0,
    conversion_rate := 0, processed_bd_keys := [] }

/-- Step `ads['organica'] = {...}` (lines 571–593). -/
def seedOrganic (organic : Option OrganicData) : AdsMap :=
  match organic with
  | some od =>
    if 0 < od.total_sales then
      [("organica",
        { ad_name_display := "Orgánica", total_revenue := od.total_revenue,
          total_leads := 0, total_sales := od.total_sales, total_spend := 0,
          roas := 0, profit := od.total_revenue,
          segmentations := [organicSeg od] })]
    else []
  | none => []

/-- The revenue-phase inner loop over an ad's existing segmentations
(lines 622–639): `some segs2` when a name match was found (`segFound`),
`none` otherwise. -/
def revMatchSegs (adNorm segNorm : String) (r : RevRow) :
    List Seg → Option (List Seg)
  | [] => none
  | s :: rest =>
    if normS s.name = segNorm then
      let key := (adNorm, segNorm, r.total_revenue, r.total_leads)
      let s1 :=
        if key ∈ s.processed_bd_keys then s
        else { s with revenue := s.revenue + r.total_revenue,
                      leads := s.leads + r.total_leads,
                      sales := s.sales + r.total_sales,
                      processed_bd_keys := s.processed_bd_keys ++ [key] }
      let s2 := { s1 with campaign_name := r.CAMPANA,
                          conversion_rate :=
                            if 0 < s1.leads then
                              ((s1.sales : Rat) / (s1.leads : Rat)) * 100
                            else 0 }
      some (s2 :: rest)
    else
      match revMatchSegs adNorm segNorm r rest with
      | some rest2 => some (s :: rest2)
      | none => none

/-- The fresh segmentation pushed when no name match exists
(lines 641–654). -/
def freshRevSeg (r : RevRow) : Seg :=
  { name := cleanS r.SEGMENTACION, campaign_name := r.CAMPANA,
    ad_id := r.AD_ID, revenue := r.total_revenue, leads := r.total_leads,
    sales := r.total_sales, spend_allocated := 0, profit := r.total_revenue,
    cpl := 0,
    conversion_rate :=
      if 0 < r.total_leads then
        ((r.total_sales : Rat) / (r.total_leads : Rat)) * 100
      else 0,
    processed_bd_keys := [] }

/-- One iteration of the revenue loop (lines 596–659).  Note the
ad-level totals at lines 656–658 accumulate unconditionally, outside
the segmentation-level dedup guard. -/
def revStep (spendMapping : List (String × String)) (ads : AdsMap)
    (r : RevRow) : AdsMap :=
  let adNameNormalized := normS r.ANUNCIO
  let segmentationNormalized := normS r.SEGMENTACION
  let ads1 : AdsMap :=
    match alookup ads adNameNormalized with
    | some _ => ads
    | none =>
      let displayName :=
        if (alookup spendMapping adNameNormalized).getD "" ≠ "" then
          cleanDisplayName (alookup spendMapping adNameNormalized)
        else cleanS r.ANUNCIO
      ads ++ [(adNameNormalized,
        { ad_name_display := displayName, total_revenue := 0, total_leads := 0,
          total_sales := 0, total_spend := 0, roas := 0, profit := 0,
          segmentations := [] })]
  aupdate ads1 adNameNormalized (fun ad =>
    let segs2 :=
      match revMatchSegs adNameNormalized segmentationNormalized r
          ad.segmentations with
      | some segs2 => segs2
      | none => ad.segmentations ++ [freshRevSeg r]
    { ad with segmentations := segs2,
              total_revenue := ad.total_revenue + r.total_revenue,
              total_leads := ad.total_leads + r.total_leads,
              total_sales := ad.total_sales + r.total_sales })

/-- The whole revenue phase. -/
def revenuePhase (spendMapping : List (String × String)) (ads : AdsMap)
    (rows : List RevRow) : AdsMap :=
  rows.foldl (revStep spendMapping) ads

/-- `findMatchingAdKey` (lines 525–536): scan every ad's segmentations
for a matching non-empty platform id, else fall back to the normalized
ad name. -/
def findAdByAdId (adId : String) : AdsMap → Option String
  | [] => none
  | (k, ad) :: rest =>
    if ad.segmentations.any (fun s => s.ad_id ≠ "" && s.ad_id = adId) then
      some k
    else findAdByAdId adId rest

/-- `findMatchingAdKey` proper. -/
def findMatchingAdKey (segData : SpendSegmentation) (ads : AdsMap) : String :=
  if segData.ad_id ≠ "" then
    match findAdByAdId segData.ad_id ads with
    | some k => k
    | none => segData.ad_name_normalized
  else segData.ad_name_normalized

/-- The spend-assignment inner loop (lines 674–688): the first
segmentation matching by non-empty platform-id equality or by
normalized name receives the spend (the two source branches perform the
same update). -/
def spendMatchSegs (adId segNorm : String) (spend : Rat) :
    List Seg → Option (List Seg)
  | [] => none
  | s :: rest =>
    if (adId ≠ "" ∧ s.ad_id ≠ "" ∧ adId = s.ad_id) ∨ normS s.name = segNorm then
      let sa := s.spend_allocated + spend
      some ({ s with spend_allocated := sa, profit := s.revenue - sa,
                     cpl := if 0 < s.leads then sa / (s.leads : Rat) else 0 }
            :: rest)
    else
      match spendMatchSegs adId segNorm spend rest with
      | some rest2 => some (s :: rest2)
      | none => none

/-- The fresh segmentation pushed for unmatched spend (lines 691–702
and 714–725). -/
def freshSpendSeg (segData : SpendSegmentation) : Seg :=
  { name := cleanS segData.segmentation_name,
    campaign_name := segData.campaign_name, ad_id := segData.ad_id,
    revenue := 0, leads := 0, sales := 0, spend_allocated := segData.spend,
    profit := -segData.spend, cpl := 0, conversion_rate := 0,
    processed_bd_keys := [] }

/-- The brand-new ad created for spend matching no existing ad
(lines 707–727). -/
def newSpendAd (segData : SpendSegmentation) : AdEntry :=
  { ad_name_display := cleanS segData.ad_name_original, total_revenue := 0,
    total_leads := 0, total_sales := 0, total_spend := segData.spend,
    roas := 0, profit := 0, segmentations := [freshSpendSeg segData] }

/-- One iteration of the spend-assignment loop (lines 663–728). -/
def spendStep (ads : AdsMap) (segData : SpendSegmentation) : AdsMap :=
  let adNameNormalized := segData.ad_name_normalized
  let segmentationNormalized := normS segData.segmentation_name
  let matchingAdKey := findMatchingAdKey segData ads
  match alookup ads matchingAdKey with
  | some _ =>
    aupdate ads matchingAdKey (fun ad =>
      let segs2 :=
        match spendMatchSegs segData.ad_id segmentationNormalized segData.spend
            ad.segmentations with
        | some segs2 => segs2
        | none => ad.segmentations ++ [freshSpendSeg segData]
      { ad with segmentations := segs2,
                total_spend := ad.total_spend + segData.spend })
  | none => ads ++ [(adNameNormalized, newSpendAd segData)]

/-- The whole spend-assignment phase. -/
def assignSpends (ads : AdsMap) (items : List SpendSegmentation) : AdsMap :=
  items.foldl spendStep ads

/-- The per-ad finalization of lines 735–742 (every creation site sets
`profit`/`cpl` on segmentations, so the backfill conditionals of lines
749–756 never fire; the revenue/profit sorts reorder only and are
omitted). -/
def finalizeAd (ad : AdEntry) : AdEntry :=
  let sp := round2 ad.total_spend
  let rv := round2 ad.total_revenue
  { ad with total_spend := sp, total_revenue := rv,
            roas := if 0 < sp then rv / sp else 0,
            profit := rv - sp }

/-- The finalize-and-grand-totals loop (lines 731–759): returns the
finalized map together with `totalRevenueAll` (organic excluded) and
`totalSpendAll` (organic included). -/
def computeTotals (ads : AdsMap) : AdsMap × Rat × Rat :=
  ads.foldl
    (fun acc kv =>
      let fin := finalizeAd kv.2
      (acc.1 ++ [(kv.1, fin)],
       acc.2.1 + (if kv.1 ≠ "organica" then fin.total_revenue else 0),
       acc.2.2 + fin.total_spend))
    ([], 0, 0)

/-- `totalRoasAll` of the returned summary (lines 900–903). -/
def totalRoasAll (totalRevenueAll totalSpendAll : Rat) : Rat :=
  if 0 < totalSpendAll then totalRevenueAll / totalSpendAll else 0

/-- The whole ledger construction of `processDashboardData` (organic
seed, revenue phase, spend phase), before finalization. -/
def buildLedger (organic : Option OrganicData)
    (spendMapping : List (String × String)) (revRows : List RevRow)
    (spendItems : List SpendSegmentation) : AdsMap :=
  assignSpends (revenuePhase spendMapping (seedOrganic organic) revRows)
    spendItems

/-! ## Staged variant: `aggregateAdsFromMongo`
(src/src/lib/mongoAggregations.ts lines 119–227)

The aggregation pipeline itself runs in the external document store;
the embedding starts from its output: the grouped revenue rows (one per
distinct `(an, seg, campana, ad_id, an_orig, seg_orig)` tuple) and the
per-`ad|seg` spend map. -/

/-- One grouped revenue row of the Mongo pipeline. -/
structure MongoRevRow where
  ad : String
  seg : String
  campana : String
  ad_id : String
  an_orig : String
  seg_orig : String
  leads : Int
  sales : Int
  revenue : Rat
deriving Repr, DecidableEq

/-- One `spendMap` entry value. -/
structure SpendInfo where
  spend : Rat
  campaign : String
  ad_id : String
deriving Repr, DecidableEq

/-- `AdSegment` of the Mongo variant (no dedup keys there). -/
structure MSeg where
  name : String
  campaign_name : String
  ad_id : String
  revenue : Rat
  leads : Int
  sales : Int
  spend_allocated : Rat
  profit : Rat
  cpl : Rat
  conversion_rate : Rat
deriving Repr, DecidableEq

/-- `AdData` of the Mongo variant. -/
structure AdData where
  ad_name_display : String
  total_revenue : Rat
  total_leads : Int
  total_sales : Int
  total_spend : Rat
  roas : Rat
  profit : Rat
  segmentations : List MSeg
deriving Repr, DecidableEq

abbrev MAdsMap : Type := List (String × AdData)

/-- The revenue-row inner loop (lines 145–158): first segmentation with
matching normalized name accumulates. -/
def mongoMatchSegs (r : MongoRevRow) (spend : Rat) :
    List MSeg → Option (List MSeg)
  | [] => none
  | s :: rest =>
    if normS s.name = r.seg then
      let sa := s.spend_allocated + spend
      let l2 := s.leads + r.leads
      let sl2 := s.sales + r.sales
      some ({ s with revenue := s.revenue + r.revenue, leads := l2,
                     sales := sl2, spend_allocated := sa,
                     profit := s.revenue + r.revenue - sa,
                     cpl := if 0 < l2 then sa / (l2 : Rat) else 0,
                     conversion_rate :=
                       if 0 < l2 then ((sl2 : Rat) / (l2 : Rat)) * 100 else 0 }
            :: rest)
    else
      match mongoMatchSegs r spend rest with
      | some rest2 => some (s :: rest2)
      | none => none

/-- The segmentation pushed when no name match exists (lines 159–172). -/
def freshMongoSeg (r : MongoRevRow) (spend : Rat) (info : Option SpendInfo) :
    MSeg :=
  { name := cleanS r.seg_orig,
    campaign_name :=
      if r.campana ≠ "" then r.campana else (info.map SpendInfo.campaign).getD "",
    ad_id := if r.ad_id ≠ "" then r.ad_id else (info.map SpendInfo.ad_id).getD "",
    revenue := r.revenue, leads := r.leads, sales := r.sales,
    spend_allocated := spend, profit := r.revenue - spend,
    cpl := if 0 < r.leads then spend / (r.leads : Rat) else 0,
    conversion_rate :=
      if 0 < r.leads then ((r.sales : Rat) / (r.leads : Rat)) * 100 else 0 }

/-- One iteration of the revenue-row loop (lines 121–178).  Note line
177: the ad's `total_spend` accumulates the spend-map figure once per
revenue row that resolves to the same `ad|seg` spend key. -/
def mongoRevStep (spendMap : List (String × SpendInfo))
    (spendMapping : List (String × String)) (ads : MAdsMap)
    (r : MongoRevRow) : MAdsMap :=
  let key := r.ad
  let segKey := r.ad ++ "|" ++ r.seg
  let spendInfo := alookup spendMap segKey
  let spend := (spendInfo.map SpendInfo.spend).getD 0
  let displayName :=
    if (alookup spendMapping r.ad).getD "" ≠ "" then
      cleanDisplayName (alookup spendMapping r.ad)
    else cleanS r.an_orig
  let ads1 : MAdsMap :=
    match alookup ads key with
    | some _ => ads
    | none =>
      ads ++ [(key,
        { ad_name_display := displayName, total_revenue := 0, total_leads := 0,
          total_sales := 0, total_spend := 0, roas := 0, profit := 0,
          segmentations := [] })]
  aupdate ads1 key (fun ad =>
    let segs2 :=
      match mongoMatchSegs r spend ad.segmentations with
      | some segs2 => segs2
      | none => ad.segmentations ++ [freshMongoSeg r spend spendInfo]
    { ad with segmentations := segs2,
              total_revenue := ad.total_revenue + r.revenue,
              total_leads := ad.total_leads + r.leads,
              total_sales := ad.total_sales + r.sales,
              total_spend := ad.total_spend + spend })

/-- `segKey.split('|')`: part before the first bar. -/
def barFst (s : String) : String := String.mk (s.data.takeWhile (fun c => c ≠ '|'))

/-- `parts.slice(1).join('|')`: everything after the first bar (empty
when there is none). -/
def barRest (s : String) : String :=
  match s.data.dropWhile (fun c => c ≠ '|') with
  | [] => ""
  | _ :: rest => String.mk rest

/-- One iteration of the unmatched-spend loop (lines 184–218). -/
def mongoSpendStep (spendMapping : List (String × String)) (ads : MAdsMap)
    (kv : String × SpendInfo) : MAdsMap :=
  let adNorm := barFst kv.1
  let segNorm := barRest kv.1
  if adNorm = "" then ads
  else
    let ads1 : MAdsMap :=
      match alookup ads adNorm with
      | some _ => ads
      | none =>
        let src := if (alookup spendMapping adNorm).getD "" ≠ "" then
            (alookup spendMapping adNorm).getD "" else adNorm
        ads ++ [(adNorm,
          { ad_name_display := cleanS src, total_revenue := 0, total_leads := 0,
            total_sales := 0, total_spend := 0, roas := 0, profit := 0,
            segmentations := [] })]
    aupdate ads1 adNorm (fun ad =>
      if ad.segmentations.any (fun s => normS s.name = segNorm) then ad
      else
        { ad with
          segmentations := ad.segmentations ++
            [{ name := segNorm, campaign_name := kv.2.campaign,
               ad_id := kv.2.ad_id, revenue := 0, leads := 0, sales := 0,
               spend_allocated := kv.2.spend, profit := -kv.2.spend, cpl := 0,
               conversion_rate := 0 }],
          total_spend := ad.total_spend + kv.2.spend,
          profit := ad.profit - kv.2.spend })

/-- The final pass (lines 220–224): round `total_spend` only, derive
roas and profit. -/
def mongoFinalize (ads : MAdsMap) : MAdsMap :=
  ads.map (fun kv =>
    let sp := round2 kv.2.total_spend
    (kv.1, { kv.2 with total_spend := sp,
                       roas := if 0 < sp then kv.2.total_revenue / sp else 0,
                       profit := kv.2.total_revenue - sp }))

/-- `aggregateAdsFromMongo` from the rows delivered by the store
(segmentation revenue sorting omitted: order only). -/
def aggregateAds (revenueRows : List MongoRevRow)
    (spendMap : List (String × SpendInfo))
    (spendMapping : List (String × String)) : MAdsMap :=
  mongoFinalize
    (spendMap.foldl (mongoSpendStep spendMapping)
      (revenueRows.foldl (mongoRevStep spendMap spendMapping) []))

/-! ## Quality/Factor Analyzer (`buildQualityAnalysis` and
`analyzeFactors`, src/unnamed/part_002 lines 146–444)

We embed the cohort grouping, the proportional spend allocation, and
the factor-classification buckets — the parts the claims are about.
The derived per-cohort statistics (`conversion_rate`, `roas`, `profit`,
`cpl`, `avg_puntaje`) and the summary object read the accumulated
fields without feeding back into them. -/

/-- One `getQualityLeadData` row.  `PUNTAJE`, counts and revenue arrive
as numbers (`parseFloat`/`parseInt` with `|| 0` applied by the
consumer); `ANUNCIO_NORMALIZED`/`SEGMENTACION_NORMALIZED` are attached
by the query layer as `normalizeAdName` of the raw fields. -/
structure QRow where
  QLEAD : String
  INGRESOS : String
  ESTUDIOS : String
  OCUPACION : String
  PROPOSITO : String
  EDAD_ESPECIFICA : String
  PUNTAJE : Rat
  ANUNCIO : String
  SEGMENTACION : String
  CAMPANA : String
  AD_ID : String
  ANUNCIO_NORMALIZED : String
  SEGMENTACION_NORMALIZED : String
  total_leads : Int
  total_sales : Int
  total_revenue : Rat
deriving Repr, DecidableEq

/-- `row.X && String(row.X).trim() ? row.X : placeholder`. -/
def orPlaceholder (v p : String) : String := if jsTrim v = "" then p else v

/-- The per-ad sub-accumulator of a quality segment. -/
structure QAdAgg where
  ad_name : String
  segmentation : String
  campaign : String
  ad_id : String
  leads : Int
  sales : Int
  revenue : Rat
  spend : Rat
  puntaje_sum : Rat
  puntaje_count : Int
deriving Repr, DecidableEq

/-- A `QualitySegment` cohort. -/
structure QualitySegment where
  qlead : String
  ingresos : String
  estudios : String
  ocupacion : String
  proposito : String
  edad_especifica : String
  total_leads : Int
  total_sales : Int
  total_revenue : Rat
  total_spend : Rat
  roas : Rat
  ads : List (String × QAdAgg)
deriving Repr, DecidableEq

abbrev QGroups : Type := List (String × QualitySegment)

/-- The grouping key of line 174: note it concatenates only five
attributes — `proposito` is not part of it. -/
def qualityKeyOf (r : QRow) : String :=
  orPlaceholder r.QLEAD "Sin Clasificar" ++ "|" ++
  orPlaceholder r.INGRESOS "No Especificado" ++ "|" ++
  orPlaceholder r.ESTUDIOS "No Especificado" ++ "|" ++
  orPlaceholder r.OCUPACION "No Especificado" ++ "|" ++
  orPlaceholder r.EDAD_ESPECIFICA "No Especificado"

/-- The `ad|seg` sub-key of line 202. -/
def qAdKeyOf (r : QRow) : String :=
  r.ANUNCIO_NORMALIZED ++ "|" ++ r.SEGMENTACION_NORMALIZED

/-- The fresh per-ad sub-accumulator (lines 203–216). -/
def freshQAd (r : QRow) : QAdAgg :=
  { ad_name := cleanS r.ANUNCIO, segmentation := cleanS r.SEGMENTACION,
    campaign := r.CAMPANA, ad_id := r.AD_ID, leads := 0, sales := 0,
    revenue := 0, spend := 0, puntaje_sum := 0, puntaje_count := 0 }

/-- The fresh cohort (lines 176–195); `proposito` is recorded from the
creating row even though it is not part of the key. -/
def freshQSeg (r : QRow) : QualitySegment :=
  { qlead := orPlaceholder r.QLEAD "Sin Clasificar",
    ingresos := orPlaceholder r.INGRESOS "No Especificado",
    estudios := orPlaceholder r.ESTUDIOS "No Especificado",
    ocupacion := orPlaceholder r.OCUPACION "No Especificado",
    proposito := orPlaceholder r.PROPOSITO "No Especificado",
    edad_especifica := orPlaceholder r.EDAD_ESPECIFICA "No Especificado",
    total_leads := 0, total_sales := 0, total_revenue := 0, total_spend := 0,
    roas := 0, ads := [] }

/-- The cohort update performed for one row once its cohort exists
(lines 197–221). -/
def qMerge (r : QRow) (seg : QualitySegment) : QualitySegment :=
  let adKey := qAdKeyOf r
  let ads1 :=
    match alookup seg.ads adKey with
    | some _ => seg.ads
    | none => seg.ads ++ [(adKey, freshQAd r)]
  { seg with
    total_leads := seg.total_leads + r.total_leads,
    total_sales := seg.total_sales + r.total_sales,
    total_revenue := seg.total_revenue + r.total_revenue,
    ads := (aupdate ads1 adKey (fun a =>
      { a with leads := a.leads + r.total_leads,
               sales := a.sales + r.total_sales,
               revenue := a.revenue + r.total_revenue,
               puntaje_sum := a.puntaje_sum + r.PUNTAJE * (r.total_leads : Rat),
               puntaje_count := a.puntaje_count + r.total_leads })) }

/-- One iteration of the cohort-grouping loop (lines 159–222). -/
def qGroupStep (groups : QGroups) (r : QRow) : QGroups :=
  let key := qualityKeyOf r
  let groups1 :=
    match alookup groups key with
    | some _ => groups
    | none => groups ++ [(key, freshQSeg r)]
  aupdate groups1 key (qMerge r)

/-- The whole grouping pass. -/
def qGroup (rows : List QRow) : QGroups := rows.foldl qGroupStep []

/-- The spend key recomputed at line 225 for a spend segmentation. -/
def spendAdKeyOf (segData : SpendSegmentation) : String :=
  segData.ad_name_normalized ++ "|" ++ normS segData.segmentation_name

/-- `totalLeadsForAd` (lines 228–233). -/
def totalLeadsForAd (groups : QGroups) (adKey : String) : Int :=
  groups.foldl
    (fun acc kv =>
      match alookup kv.2.ads adKey with
      | some a => acc + a.leads
      | none => acc) 0

/-- The per-cohort update of the allocation loop (lines 235–243): a
cohort containing `adKey` (when the key's total leads are positive)
gets `spend * leads/total` assigned — not accumulated — on the
sub-entry and added to its `total_spend`. -/
def allocApply (segData : SpendSegmentation) (adKey : String)
    (totalLeads : Int) (kv : String × QualitySegment) :
    String × QualitySegment :=
  match alookup kv.2.ads adKey with
  | some a =>
    if 0 < totalLeads then
      let proportionalSpend :=
        segData.spend * ((a.leads : Rat) / (totalLeads : Rat))
      (kv.1, { kv.2 with
        ads := (aupdate kv.2.ads adKey (fun a2 =>
          { a2 with spend := proportionalSpend })),
        total_spend := kv.2.total_spend + proportionalSpend })
    else kv
  | none => kv

/-- The proportional allocation for one spend segmentation
(lines 224–243). -/
def allocStep (groups : QGroups) (segData : SpendSegmentation) : QGroups :=
  groups.map
    (allocApply segData (spendAdKeyOf segData)
      (totalLeadsForAd groups (spendAdKeyOf segData)))

/-- The whole allocation pass over `Object.values(segmentationsData)`. -/
def allocateSpend (groups : QGroups) (items : List SpendSegmentation) : QGroups :=
  items.foldl allocStep groups

/-! ### `analyzeFactors` classification buckets -/

/-- The six single attributes iterated by `factorFields`. -/
inductive FactorField
  | qlead | ingresos | estudios | ocupacion | proposito | edad_especifica
deriving Repr, DecidableEq

/-- Attribute read `(segment as any)[field]` (always present, so the
`?? 'Sin Clasificar'` fallback never fires). -/
def fieldVal : FactorField → QualitySegment → String
  | .qlead, s => s.qlead
  | .ingresos, s => s.ingresos
  | .estudios, s => s.estudios
  | .ocupacion, s => s.ocupacion
  | .proposito, s => s.proposito
  | .edad_especifica, s => s.edad_especifica

/-- `goodRoasSegments = qualitySegments.filter(s => s.roas >= roasThreshold)`. -/
def goodRoasSegs (segs : List QualitySegment) (roasThreshold : Rat) :
    List QualitySegment :=
  segs.filter (fun s => roasThreshold ≤ s.roas)

/-- `badRoasSegments = qualitySegments.filter(s => s.roas < roasThreshold)`. -/
def badRoasSegs (segs : List QualitySegment) (roasThreshold : Rat) :
    List QualitySegment :=
  segs.filter (fun s => s.roas < roasThreshold)

/-- The lead total a value accumulates over a segment list
(`counts[value] += segment.total_leads`). -/
def leadsFor (l : List QualitySegment) (valOf : QualitySegment → String)
    (v : String) : Int :=
  (l.filter (fun s => valOf s = v)).foldl (fun acc s => acc + s.total_leads) 0

/-- The classification statistics recorded per bucket entry (the
display-rounded ratio; the per-bucket mean-ROAS / factor-pair display
fields do not influence membership and are not modelled). -/
structure BStats where
  good_leads : Int
  bad_leads : Int
  ratio : Rat
  total_leads : Int
deriving Repr, DecidableEq

/-- `Math.round(ratio * 1000) / 10`. -/
def displayRatio (ratio : Rat) : Rat := ((ratio * 1000 + 1 / 2).floor : Rat) / 10

/-- The classification loop body shared by the single-attribute pass
(lines 337–375, thresholds 5 / 0.7 / 0.3) and the combination pass
(lines 408–429, thresholds 10 / 0.8 / 0.2): for each candidate value,
compare the good-lead ratio against the cutoffs. -/
def classifyValues (good bad : List QualitySegment)
    (valOf : QualitySegment → String) (minLeads : Int) (hi lo : Rat) :
    List String → List (String × BStats) × List (String × BStats)
  | [] => ([], [])
  | v :: rest =>
    let acc := classifyValues good bad valOf minLeads hi lo rest
    let goodCount := leadsFor good valOf v
    let badCount := leadsFor bad valOf v
    let totalCount := goodCount + badCount
    if minLeads ≤ totalCount then
      let ratio : Rat := (goodCount : Rat) / (totalCount : Rat)
      let stats : BStats :=
        { good_leads := goodCount, bad_leads := badCount,
          ratio := displayRatio ratio, total_leads := totalCount }
      if hi ≤ ratio then ((v, stats) :: acc.1, acc.2)
      else if ratio ≤ lo then (acc.1, (v, stats) :: acc.2)
      else acc
    else acc

/-- `new Set([...goodCounts keys, ...badCounts keys])`: the candidate
values. -/
def allValuesOf (good bad : List QualitySegment)
    (valOf : QualitySegment → String) : List String :=
  (good.map valOf ++ bad.map valOf).dedup

/-- `good_factors[field]` / `bad_factors[field]` for one attribute. -/
def analyzeFieldBuckets (segs : List QualitySegment) (roasThreshold : Rat)
    (f : FactorField) : List (String × BStats) × List (String × BStats) :=
  let good := goodRoasSegs segs roasThreshold
  let bad := badRoasSegs segs roasThreshold
  classifyValues good bad (fieldVal f) 5 (7 / 10) (3 / 10)
    (allValuesOf good bad (fieldVal f))

/-- `` `${v1} + ${v2}` `` for a factor pair. -/
def comboVal (p : FactorField × FactorField) (s : QualitySegment) : String :=
  fieldVal p.1 s ++ " + " ++ fieldVal p.2 s

/-- The fixed `factorPairs` list (lines 378–387). -/
def factorPairs : List (FactorField × FactorField) :=
  [(.qlead, .ingresos), (.qlead, .ocupacion), (.qlead, .edad_especifica),
   (.ingresos, .estudios), (.ingresos, .ocupacion),
   (.ingresos, .edad_especifica), (.estudios, .ocupacion),
   (.edad_especifica, .ocupacion)]

/-- `good_factors.combinations` / `bad_factors.combinations` entries
contributed by one factor pair. -/
def analyzeComboBuckets (segs : List QualitySegment) (roasThreshold : Rat)
    (p : FactorField × FactorField) :
    List (String × BStats) × List (String × BStats) :=
  let good := goodRoasSegs segs roasThreshold
  let bad := badRoasSegs segs roasThreshold
  classifyValues good bad (comboVal p) 10 (4 / 5) (1 / 5)
    (allValuesOf good bad (comboVal p))

/-- Lead support a value receives from the good-ROAS cohorts. -/
def goodLeadsOf (segs : List QualitySegment) (θ : Rat)
    (valOf : QualitySegment → String) (v : String) : Int :=
  leadsFor (goodRoasSegs segs θ) valOf v

/-- Lead support a value receives from the bad-ROAS cohorts. -/
def badLeadsOf (segs : List QualitySegment) (θ : Rat)
    (valOf : QualitySegment → String) (v : String) : Int :=
  leadsFor (badRoasSegs segs θ) valOf v

/-- Total lead support of a value. -/
def totalLeadsOf (segs : List QualitySegment) (θ : Rat)
    (valOf : QualitySegment → String) (v : String) : Int :=
  goodLeadsOf segs θ valOf v + badLeadsOf segs θ valOf v

/-- The good-lead ratio `goodCount / totalCount` of a value. -/
def ratioOf (segs : List QualitySegment) (θ : Rat)
    (valOf : QualitySegment → String) (v : String) : Rat :=
  (goodLeadsOf segs θ valOf v : Rat) /
    ((goodLeadsOf segs θ valOf v : Rat) + (badLeadsOf segs θ valOf v : Rat))

/-! ## Measurement helpers (spec side)

These sums are the quantities the spec's conservation properties talk
about; they are stated over the embedded structures. -/

/-- Sum of a rational measurement over an association list. -/
def sumByQ {α : Type} (l : List (String × α)) (f : α → Rat) : Rat :=
  (l.map (fun kv => f kv.2)).sum

/-- Spend allocated to spend key `adKey` across all quality cohorts. -/
def allocatedTo (groups : QGroups) (adKey : String) : Rat :=
  (groups.map (fun kv =>
    match alookup kv.2.ads adKey with
    | some a => a.spend
    | none => 0)).sum

/-- Leads recorded for spend key `adKey` across all quality cohorts,
as a plain sum (equal to the source's `totalLeadsForAd` fold). -/
def leadsTo (groups : QGroups) (adKey : String) : Int :=
  (groups.map (fun kv =>
    match alookup kv.2.ads adKey with
    | some a => a.leads
    | none => 0)).sum

/-- The C10 invariant on one spend segmentation: the three name fields
are non-empty. -/
def NonEmptyNames (s : SpendSegmentation) : Prop :=
  s.campaign_name ≠ "" ∧ s.ad_set_name ≠ "" ∧ s.ad_name_original ≠ ""

/-- "No spend is recorded for key `K` in any cohort": every cohort's
sub-entry at `K` (when present) has zero spend. -/
def ZeroAt (K : String) (G : QGroups) : Prop :=
  ∀ kv ∈ G, ∀ a, alookup kv.2.ads K = some a → a.spend = 0

/-- Sum of a ledger ad's per-segmentation allocated spend. -/
def segSpendSum (ad : AdEntry) : Rat :=
  (ad.segmentations.map Seg.spend_allocated).sum

/-- Sum of `total_spend` over the whole ledger. -/
def adsSpendSum (ads : AdsMap) : Rat :=
  (ads.map (fun kv => kv.2.total_spend)).sum

/-- Per-ad invariant: `total_spend` equals the sum of the
segmentations' `spend_allocated`. -/
def SpendInv (ads : AdsMap) : Prop :=
  ∀ kv ∈ ads, kv.2.total_spend = segSpendSum kv.2

/-! ## Concrete instances used by counterexamples and witnesses -/

/-- A revenue row (AdX / SegA, 300 revenue, 50 leads, 5 sales). -/
def rowAdX : RevRow :=
  { ANUNCIO := "AdX", SEGMENTACION := "SegA", CAMPANA := "C1", AD_ID := "",
    total_leads := 50, total_sales := 5, total_revenue := 300 }

/-- Spend segmentation: AdX / SegA, platform id 123, spend 50. -/
def spendAdX : SpendSegmentation :=
  { campaign_name := "Camp", ad_set_name := "SegA", ad_name_original := "AdX",
    ad_name_normalized := "adx", ad_id := "123", segmentation_name := "SegA",
    spend := 50 }

/-- Spend segmentation with the same platform id but a drifted name. -/
def spendAdXDrifted : SpendSegmentation :=
  { campaign_name := "Camp", ad_set_name := "SegB",
    ad_name_original := "AdX Drifted", ad_name_normalized := "adx drifted",
    ad_id := "123", segmentation_name := "SegB", spend := 70 }

/-- Mongo revenue group (adx/sega via campaign c1). -/
def mongoRow1 : MongoRevRow :=
  { ad := "adx", seg := "sega", campana := "c1", ad_id := "", an_orig := "AdX",
    seg_orig := "SegA", leads := 10, sales := 1, revenue := 30 }

/-- The same ad/seg pair grouped under a second campaign. -/
def mongoRow2 : MongoRevRow := { mongoRow1 with campana := "c2" }

/-- The single spend-map entry for adx/sega: 100 spent. -/
def mongoSpend1 : SpendInfo := { spend := 100, campaign := "c1", ad_id := "" }

/-- A quality row with purpose "A". -/
def qRowA : QRow :=
  { QLEAD := "Alta", INGRESOS := "Media", ESTUDIOS := "Uni",
    OCUPACION := "Emp", PROPOSITO := "A", EDAD_ESPECIFICA := "30-40",
    PUNTAJE := 5, ANUNCIO := "AdX", SEGMENTACION := "SegA", CAMPANA := "C",
    AD_ID := "", ANUNCIO_NORMALIZED := "adx", SEGMENTACION_NORMALIZED := "sega",
    total_leads := 7, total_sales := 1, total_revenue := 10 }

/-- The same quality row except for the purpose attribute. -/
def qRowB : QRow := { qRowA with PROPOSITO := "B" }

/-- A quality row for a second ad/seg key sharing the cohort tuple. -/
def qRowC : QRow :=
  { qRowA with ANUNCIO := "AdY", ANUNCIO_NORMALIZED := "ady",
               total_leads := 3, total_sales := 0, total_revenue := 0 }

/-- Spend segmentation matching `qRowA`'s `adx|sega` key, spend 40. -/
def qSpendA : SpendSegmentation :=
  { campaign_name := "C", ad_set_name := "SegA", ad_name_original := "AdX",
    ad_name_normalized := "adx", ad_id := "", segmentation_name := "SegA",
    spend := 40 }

/-- A good-ROAS cohort (ROAS 2) with 7 leads, qlead "X". -/
def wSegGood : QualitySegment :=
  { qlead := "X", ingresos := "I", estudios := "E", ocupacion := "O",
    proposito := "P", edad_especifica := "30-40", total_leads := 7,
    total_sales := 1, total_revenue := 20, total_spend := 10, roas := 2,
    ads := [] }

/-- A bad-ROAS cohort (ROAS 1) with 3 leads, also qlead "X". -/
def wSegBad : QualitySegment :=
  { wSegGood with total_leads := 3, roas := 1 }

/-- Good/bad cohorts for the combination witness: 16 and 4 leads give
total 20 with ratio 0.8 for the shared value pair. -/
def wSegGood2 : QualitySegment := { wSegGood with total_leads := 16 }

/-- The bad cohort of the combination witness. -/
def wSegBad2 : QualitySegment := { wSegBad with total_leads := 4 }

/-- A CSV row with an empty ad name (skipped by `processSpendCSV`). -/
def csvRowBad : CSVDataRow :=
  { campaignName := some "Camp", adSetName := some "SegA", adName := some "  ",
    amountSpent := some "99", adId := some "1" }

/-- A complete CSV row. -/
def csvRowGood : CSVDataRow :=
  { campaignName := some "Camp", adSetName := some "SegA",
    adName := some "AdX", amountSpent := some "12,5", adId := some "1" }

/-! # Theorems -/

/-! ## Sanity checks on the Name Normalizer embedding -/

/-- The spec's own normalization example. -/
theorem normS_cafe_elite : normS "Café Élite!!" = normS "cafe elite" := by decide

/-- `cleanDisplayName` sentinel behaviour on "-" . -/
theorem cleanS_dash : cleanS "-" = "[Sin nombre]" := by decide

/-- Media extensions are stripped. -/
theorem cleanS_ext : cleanS "video.mp4" = "video" := by decide

/-! ## C1 — spend conservation -/

/-- C1: spend conservation fails in `aggregateAdsFromMongo`: with two
revenue groups sharing the `adx|sega` key (different campaigns) and a
single 100-unit spend entry for that key, the ledger's total spend is
200 while the input spend sums to 100 — the spend-map figure is added
once per contributing revenue group (mongoAggregations.ts line 177),
so spend is created, contradicting the claimed conservation. -/
theorem C1_mongo_spend_double_counted :
    ((aggregateAds [mongoRow1, mongoRow2] [("adx|sega", mongoSpend1)] []).map
        (fun kv => kv.2.total_spend)).sum = 200 ∧
      (([("adx|sega", mongoSpend1)] : List (String × SpendInfo)).map
        (fun kv => kv.2.spend)).sum = 100 := by
  constructor <;> decide

/-! ## Generic association-list and fold lemmas -/

theorem alookup_nil {α : Type} (k : String) : alookup ([] : List (String × α)) k = none := rfl

theorem alookup_cons {α : Type} (hd : String × α) (tl : List (String × α))
    (k : String) :
    alookup (hd :: tl) k = if hd.1 = k then some hd.2 else alookup tl k := rfl

theorem aupdate_cons {α : Type} (hd : String × α) (tl : List (String × α))
    (k : String) (f : α → α) :
    aupdate (hd :: tl) k f =
      if hd.1 = k then (hd.1, f hd.2) :: tl else hd :: aupdate tl k f := rfl

theorem alookup_append_right {α : Type} (l1 l2 : List (String × α)) (k : String)
    (h : alookup l1 k = none) : alookup (l1 ++ l2) k = alookup l2 k := by
  induction l1 with
  | nil => simp
  | cons hd tl ih =>
    rw [List.cons_append, alookup_cons]
    rw [alookup_cons] at h
    by_cases hk : hd.1 = k
    · rw [if_pos hk] at h; exact absurd h (by simp)
    · rw [if_neg hk] at h
      rw [if_neg hk]
      exact ih h

theorem alookup_aupdate_self {α : Type} (l : List (String × α)) (k : String)
    (f : α → α) : alookup (aupdate l k f) k = (alookup l k).map f := by
  induction l with
  | nil => simp [alookup, aupdate]
  | cons hd tl ih =>
    rw [aupdate_cons]
    by_cases hk : hd.1 = k
    · rw [if_pos hk, alookup_cons, alookup_cons, if_pos hk, if_pos hk]
      rfl
    · rw [if_neg hk, alookup_cons, alookup_cons, if_neg hk, if_neg hk]
      exact ih

theorem alookup_aupdate_ne {α : Type} (l : List (String × α)) (k k2 : String)
    (f : α → α) (h : k2 ≠ k) : alookup (aupdate l k f) k2 = alookup l k2 := by
  induction l with
  | nil => simp [aupdate]
  | cons hd tl ih =>
    rw [aupdate_cons]
    by_cases hk : hd.1 = k
    · have hk2 : ¬(hd.1 = k2) := fun hh => h ((hh.symm.trans hk).symm ▸ rfl)
      rw [if_pos hk, alookup_cons, alookup_cons]
      simp only
      rw [if_neg hk2, if_neg hk2]
    · rw [if_neg hk, alookup_cons, alookup_cons]
      by_cases hk2 : hd.1 = k2
      · rw [if_pos hk2, if_pos hk2]
      · rw [if_neg hk2, if_neg hk2]
        exact ih

theorem mem_aupdate {α : Type} {l : List (String × α)} {k : String} {f : α → α}
    {kv : String × α} (h : kv ∈ aupdate l k f) :
    ∃ kv2 ∈ l, kv = kv2 ∨ (kv.1 = kv2.1 ∧ kv.2 = f kv2.2) := by
  induction l with
  | nil => simp [aupdate] at h
  | cons hd tl ih =>
    rw [aupdate_cons] at h
    by_cases hk : hd.1 = k
    · rw [if_pos hk] at h
      rcases List.mem_cons.mp h with h1 | h1
      · exact ⟨hd, List.mem_cons_self _ _, Or.inr ⟨by simp [h1], by simp [h1]⟩⟩
      · exact ⟨kv, List.mem_cons_of_mem _ h1, Or.inl rfl⟩
    · rw [if_neg hk] at h
      rcases List.mem_cons.mp h with h1 | h1
      · exact ⟨hd, List.mem_cons_self _ _, Or.inl h1⟩
      · obtain ⟨kv2, hm, hor⟩ := ih h1
        exact ⟨kv2, List.mem_cons_of_mem _ hm, hor⟩

theorem foldl_preserve {σ β : Type} (f : σ → β → σ) (P : σ → Prop)
    (h : ∀ s b, P s → P (f s b)) : ∀ (l : List β) (s : σ), P s → P (l.foldl f s)
  | [], _, hs => hs
  | b :: l, s, hs => foldl_preserve f P h l (f s b) (h s b hs)

/-! ## C7 — grand totals -/

theorem computeTotals_go (l : List (String × AdEntry)) (acc : AdsMap × Rat × Rat) :
    (l.foldl
      (fun acc kv =>
        let fin := finalizeAd kv.2
        (acc.1 ++ [(kv.1, fin)],
         acc.2.1 + (if kv.1 ≠ "organica" then fin.total_revenue else 0),
         acc.2.2 + fin.total_spend)) acc) =
      (acc.1 ++ l.map (fun kv => (kv.1, finalizeAd kv.2)),
       acc.2.1 + ((l.filter (fun kv => kv.1 ≠ "organica")).map
         (fun kv => (finalizeAd kv.2).total_revenue)).sum,
       acc.2.2 + (l.map (fun kv => (finalizeAd kv.2).total_spend)).sum) := by
  induction l generalizing acc with
  | nil => simp
  | cons hd tl ih =>
    rw [List.foldl_cons, ih]
    by_cases hk : hd.1 = "organica"
    · simp [hk, List.filter_cons, add_assoc]
    · simp [hk, List.filter_cons, add_assoc]

/-- C7: `totalRevenueAll` sums the finalized `total_revenue` over every
ledger entry except those keyed `"organica"`, `totalSpendAll` sums the
finalized `total_spend` over every entry including the organic one, and
the overall ROAS is revenue/spend when spend is positive and 0
otherwise. -/
theorem C7_grand_totals (ads : AdsMap) :
    (computeTotals ads).1 = ads.map (fun kv => (kv.1, finalizeAd kv.2)) ∧
    (computeTotals ads).2.1 =
      ((ads.filter (fun kv => kv.1 ≠ "organica")).map
        (fun kv => (finalizeAd kv.2).total_revenue)).sum ∧
    (computeTotals ads).2.2 =
      (ads.map (fun kv => (finalizeAd kv.2).total_spend)).sum ∧
    totalRoasAll (computeTotals ads).2.1 (computeTotals ads).2.2 =
      (if 0 < (computeTotals ads).2.2 then
        (computeTotals ads).2.1 / (computeTotals ads).2.2 else 0) := by
  have h := computeTotals_go ads ([], 0, 0)
  unfold computeTotals
  rw [h]
  refine ⟨by simp, by simp, by simp, rfl⟩

/-! ## C10 — incomplete spend rows are skipped -/

theorem processSpendRow_skip (rate : Rat) (st : SpendState) (row : CSVDataRow)
    (h : optTrim row.campaignName = "" ∨ optTrim row.adSetName = "" ∨
      optTrim row.adName = "") : processSpendRow rate st row = st := by
  unfold processSpendRow
  rw [if_neg]
  tauto

theorem processSpendRow_preserves (rate : Rat) (st : SpendState)
    (row : CSVDataRow) (h : ∀ kv ∈ st.segmentations, NonEmptyNames kv.2) :
    ∀ kv ∈ (processSpendRow rate st row).segmentations, NonEmptyNames kv.2 := by
  intro kv hkv
  unfold processSpendRow at hkv
  by_cases hguard : optTrim row.campaignName ≠ "" ∧ optTrim row.adSetName ≠ "" ∧
      optTrim row.adName ≠ ""
  · rw [if_pos hguard] at hkv
    simp only at hkv
    obtain ⟨kv2, hm2, hor⟩ := mem_aupdate hkv
    have hP2 : NonEmptyNames kv2.2 := by
      rcases hx : alookup st.segmentations
          (normS (optTrim row.adName) ++ "|" ++ normS (optTrim row.adSetName)) with
        _ | v
      · simp only [hx] at hm2
        rcases List.mem_append.mp hm2 with hmm | hmm
        · exact h kv2 hmm
        · simp only [List.mem_singleton] at hmm
          subst hmm
          exact ⟨hguard.1, hguard.2.1, hguard.2.2⟩
      · simp only [hx] at hm2
        exact h kv2 hm2
    rcases hor with rfl | ⟨_, hval⟩
    · exact hP2
    · rw [NonEmptyNames, hval]
      exact hP2
  · rw [if_neg hguard] at hkv
    exact h kv hkv

/-- C10: a CSV row whose trimmed campaign, ad-set or ad name is empty
leaves the accumulator untouched (no segmentation, no spend), and
consequently every segmentation produced by `processSpendCSV` carries
non-empty campaign, ad-set and original ad names. -/
theorem C10_skip_incomplete_rows :
    (∀ (rate : Rat) (st : SpendState) (row : CSVDataRow),
      optTrim row.campaignName = "" ∨ optTrim row.adSetName = "" ∨
        optTrim row.adName = "" →
      processSpendRow rate st row = st) ∧
    (∀ (rows : List CSVDataRow) (rate : Rat),
      ∀ kv ∈ (processSpendRows rows rate).segmentations, NonEmptyNames kv.2) := by
  refine ⟨processSpendRow_skip, fun rows rate => ?_⟩
  have := foldl_preserve (processSpendRow rate)
    (fun st => ∀ kv ∈ st.segmentations, NonEmptyNames kv.2)
    (fun st row hst => processSpendRow_preserves rate st row hst) rows ⟨[], []⟩
    (by intro kv hkv; simp at hkv)
  exact this

/-- Witness for C10 at a concrete skipped row and a concrete produced
segmentation. -/
theorem C10_witness :
    processSpendRow 0 ⟨[], []⟩ csvRowBad = ⟨[], []⟩ ∧
    NonEmptyNames (("adx|sega",
      ({ campaign_name := "Camp", ad_set_name := "SegA",
         ad_name_original := "AdX", ad_name_normalized := "adx", ad_id := "1",
         segmentation_name := "SegA", spend := 25 / 2 } : SpendSegmentation)) :
        String × SpendSegmentation).2 := by
  constructor
  · exact C10_skip_incomplete_rows.1 0 ⟨[], []⟩ csvRowBad
      (Or.inr (Or.inr (by decide)))
  · exact C10_skip_incomplete_rows.2 [csvRowGood] 0 _ (by decide)

/-! ## C5 — amended: non-empty for non-empty input -/

/-- C5 (amended): for every *non-empty* string input `cleanDisplayName`
returns a non-empty string (`"[Sin nombre]"` when the cleaned result
would be empty, `"-"` or `"undefined"`); for null/undefined/empty-string
inputs it returns the empty string (see `C5_counterexample`). -/
theorem C5_nonempty_of_nonempty (s : String) (h : s ≠ "") :
    cleanDisplayName (some s) ≠ "" := by
  show (if s = "" then "" else _) ≠ ""
  rw [if_neg h]
  split
  · decide
  · next h2 =>
    intro hempty
    exact h2 (Or.inr (Or.inl hempty))

/-- Witness for the amended C5. -/
theorem C5_witness : cleanDisplayName (some "x") ≠ "" :=
  C5_nonempty_of_nonempty "x" (by decide)

/-! ## C3 — platform-ID precedence: counterexample -/

/-- C3 counterexample: `spendAdX` and `spendAdXDrifted` carry the same
non-empty platform id `123` but different normalized names; in a full
reconciliation whose revenue phase already created a SegA entry for
`adx` (with an empty stored id), the first spend folds into that
segmentation *by name* without recording the id, so the second spend
finds no id match and lands in a fresh `adx drifted` entry — two
distinct AdLedgerEntries, refuting the claim. -/
theorem C3_counterexample :
    spendAdX.ad_id = spendAdXDrifted.ad_id ∧ spendAdX.ad_id ≠ "" ∧
    spendAdX.ad_name_normalized ≠ spendAdXDrifted.ad_name_normalized ∧
    ((buildLedger none [] [rowAdX] [spendAdX, spendAdXDrifted]).map
      (fun kv => (kv.1, kv.2.total_spend))) =
      [("adx", 50), ("adx drifted", 70)] := by
  refine ⟨rfl, by decide, by decide, by decide⟩

/-! ## C4 — normalization idempotence: counterexample -/

/-- C4 counterexample: `normalizeAdName ".-."` is `"-"`, but
normalizing again hits `cleanDisplayName`'s `"-"` sentinel and returns
`""` — normalization is not idempotent. -/
theorem C4_counterexample :
    normS (normS ".-.") ≠ normS ".-." ∧ normS ".-." = "-" ∧
      normS (normS ".-.") = "" := by
  refine ⟨by decide, by decide, by decide⟩

/-! ## C5 — cleanDisplayName never empty: counterexample -/

/-- C5 counterexample: for the empty-string (and null/undefined) input
the `if (!name) return ''` guard returns the empty string, not the
`"[Sin nombre]"` sentinel. -/
theorem C5_counterexample :
    cleanDisplayName (some "") = "" ∧ cleanDisplayName none = "" := by
  exact ⟨rfl, rfl⟩

/-! ## C9 — quality cohort grouping key: counterexample -/

/-- C9 counterexample: `qRowA` and `qRowB` differ only in the purpose
attribute, yet grouping them produces a single cohort (the grouping key
of part_002 line 174 omits `proposito`), with the leads of both rows
merged and the purpose of the first row recorded — refuting the claim
that they land in different cohorts. -/
theorem C9_counterexample :
    qRowA.PROPOSITO ≠ qRowB.PROPOSITO ∧
    (qGroup [qRowA, qRowB]).length = 1 ∧
    ((qGroup [qRowA, qRowB]).map
      (fun kv => (kv.2.total_leads, kv.2.proposito))) = [(14, "A")] := by
  refine ⟨by decide, by decide, by decide⟩

/-! ## C3 — amended platform-ID precedence -/

theorem spendStep_nil (s : SpendSegmentation) :
    spendStep [] s = [(s.ad_name_normalized, newSpendAd s)] := by
  unfold spendStep findMatchingAdKey findAdByAdId
  simp [alookup]

/-- C3 (amended): two spend items with the same non-empty platform id
reconcile into a single AdLedgerEntry when spend is reconciled into an
empty ads map (the first item's segmentation then records the id); two
items with the same normalized ad name and no id likewise fold into the
single name-keyed entry.  (With a pre-existing revenue segmentation
that matches the first item by name but stores a different id, the two
items can land in different entries — see `C3_counterexample`.) -/
theorem C3_platform_id_folds_single_entry :
    (∀ s1 s2 : SpendSegmentation, s1.ad_id ≠ "" → s2.ad_id = s1.ad_id →
      (assignSpends [] [s1, s2]).length = 1 ∧
      sumByQ (assignSpends [] [s1, s2]) AdEntry.total_spend =
        s1.spend + s2.spend) ∧
    (∀ s1 s2 : SpendSegmentation, s1.ad_id = "" → s2.ad_id = "" →
      s2.ad_name_normalized = s1.ad_name_normalized →
      (assignSpends [] [s1, s2]).length = 1 ∧
      sumByQ (assignSpends [] [s1, s2]) AdEntry.total_spend =
        s1.spend + s2.spend) := by
  constructor
  · intro s1 s2 h1 h2
    have h2ne : s2.ad_id ≠ "" := by rw [h2]; exact h1
    show ((spendStep (spendStep [] s1) s2).length = 1) ∧
      sumByQ (spendStep (spendStep [] s1) s2) AdEntry.total_spend =
        s1.spend + s2.spend
    rw [spendStep_nil]
    have hfind : findMatchingAdKey s2 [(s1.ad_name_normalized, newSpendAd s1)] =
        s1.ad_name_normalized := by
      unfold findMatchingAdKey findAdByAdId
      rw [if_pos h2ne]
      simp [newSpendAd, freshSpendSeg, h1, h2]
    unfold spendStep
    rw [hfind]
    simp [alookup, aupdate, newSpendAd, sumByQ]
  · intro s1 s2 h1 h2 h3
    show ((spendStep (spendStep [] s1) s2).length = 1) ∧
      sumByQ (spendStep (spendStep [] s1) s2) AdEntry.total_spend =
        s1.spend + s2.spend
    rw [spendStep_nil]
    have hfind : findMatchingAdKey s2 [(s1.ad_name_normalized, newSpendAd s1)] =
        s1.ad_name_normalized := by
      unfold findMatchingAdKey
      rw [if_neg (by simp [h2]), h3]
    unfold spendStep
    rw [hfind]
    simp [alookup, aupdate, newSpendAd, sumByQ]

/-- Witness for the amended C3 at concrete items on both branches. -/
theorem C3_witness :
    ((assignSpends [] [spendAdX, spendAdXDrifted]).length = 1 ∧
      sumByQ (assignSpends [] [spendAdX, spendAdXDrifted]) AdEntry.total_spend =
        spendAdX.spend + spendAdXDrifted.spend) ∧
    ((assignSpends [] [qSpendA, qSpendA]).length = 1 ∧
      sumByQ (assignSpends [] [qSpendA, qSpendA]) AdEntry.total_spend =
        qSpendA.spend + qSpendA.spend) :=
  ⟨C3_platform_id_folds_single_entry.1 spendAdX spendAdXDrifted (by decide)
      (by decide),
   C3_platform_id_folds_single_entry.2 qSpendA qSpendA (by decide) (by decide)
      (by decide)⟩

/-! ## C9 — amended cohort key -/

/-- C9 (amended): the cohort key is the 5-tuple of placeholder-filled
attributes excluding purpose, so two rows agreeing on those five
attributes — in particular two rows differing only in the purpose
attribute — land in the same single cohort, whose recorded purpose is
the first row's. -/
theorem C9_cohort_key_excludes_purpose (r1 r2 : QRow)
    (h1 : orPlaceholder r2.QLEAD "Sin Clasificar" =
      orPlaceholder r1.QLEAD "Sin Clasificar")
    (h2 : orPlaceholder r2.INGRESOS "No Especificado" =
      orPlaceholder r1.INGRESOS "No Especificado")
    (h3 : orPlaceholder r2.ESTUDIOS "No Especificado" =
      orPlaceholder r1.ESTUDIOS "No Especificado")
    (h4 : orPlaceholder r2.OCUPACION "No Especificado" =
      orPlaceholder r1.OCUPACION "No Especificado")
    (h5 : orPlaceholder r2.EDAD_ESPECIFICA "No Especificado" =
      orPlaceholder r1.EDAD_ESPECIFICA "No Especificado") :
    (qGroup [r1, r2]).length = 1 ∧
    ∀ kv ∈ qGroup [r1, r2],
      kv.2.proposito = orPlaceholder r1.PROPOSITO "No Especificado" ∧
      kv.2.total_leads = r1.total_leads + r2.total_leads := by
  have hkey : qualityKeyOf r2 = qualityKeyOf r1 := by
    unfold qualityKeyOf
    rw [h1, h2, h3, h4, h5]
  have hstep1 : qGroupStep [] r1 =
      [(qualityKeyOf r1, qMerge r1 (freshQSeg r1))] := by
    unfold qGroupStep
    simp [alookup_nil, aupdate_cons]
  have hstep2 : qGroupStep [(qualityKeyOf r1, qMerge r1 (freshQSeg r1))] r2 =
      [(qualityKeyOf r1, qMerge r2 (qMerge r1 (freshQSeg r1)))] := by
    unfold qGroupStep
    simp [alookup_cons, aupdate_cons, hkey]
  have hall : qGroup [r1, r2] =
      [(qualityKeyOf r1, qMerge r2 (qMerge r1 (freshQSeg r1)))] := by
    unfold qGroup
    rw [List.foldl_cons, List.foldl_cons, List.foldl_nil, hstep1, hstep2]
  rw [hall]
  refine ⟨rfl, ?_⟩
  intro kv hkv
  simp only [List.mem_singleton] at hkv
  subst hkv
  constructor
  · rfl
  · show (0 + r1.total_leads) + r2.total_leads = r1.total_leads + r2.total_leads
    ring

/-- Witness for the amended C9 at `qRowA`/`qRowB`. -/
theorem C9_witness :
    (qGroup [qRowA, qRowB]).length = 1 ∧
    ∀ kv ∈ qGroup [qRowA, qRowB],
      kv.2.proposito = orPlaceholder qRowA.PROPOSITO "No Especificado" ∧
      kv.2.total_leads = qRowA.total_leads + qRowB.total_leads :=
  C9_cohort_key_excludes_purpose qRowA qRowB (by decide) (by decide) (by decide)
    (by decide) (by decide)

/-! ## C8 — factor classification boundaries -/

theorem leadsFor_mem_of_ne_zero {l : List QualitySegment}
    {valOf : QualitySegment → String} {v : String}
    (h : leadsFor l valOf v ≠ 0) : v ∈ l.map valOf := by
  by_contra hv
  apply h
  unfold leadsFor
  have hfil : l.filter (fun s => valOf s = v) = [] := by
    rw [List.filter_eq_nil_iff]
    intro a ha
    simp only [decide_eq_true_eq]
    intro hav
    exact hv (List.mem_map.mpr ⟨a, ha, hav⟩)
  rw [hfil]
  rfl

theorem mem_allValues {good bad : List QualitySegment}
    {valOf : QualitySegment → String} {v : String}
    (h : leadsFor good valOf v ≠ 0 ∨ leadsFor bad valOf v ≠ 0) :
    v ∈ allValuesOf good bad valOf := by
  unfold allValuesOf
  rw [List.mem_dedup, List.mem_append]
  rcases h with h | h
  · exact Or.inl (leadsFor_mem_of_ne_zero h)
  · exact Or.inr (leadsFor_mem_of_ne_zero h)

theorem alookup_classify_good (good bad : List QualitySegment)
    (valOf : QualitySegment → String) (minLeads : Int) (hi lo : Rat)
    (vs : List String) (v : String) :
    alookup (classifyValues good bad valOf minLeads hi lo vs).1 v ≠ none ↔
      v ∈ vs ∧
      minLeads ≤ leadsFor good valOf v + leadsFor bad valOf v ∧
      hi ≤ (leadsFor good valOf v : Rat) /
        ((leadsFor good valOf v : Rat) + (leadsFor bad valOf v : Rat)) := by
  induction vs with
  | nil => simp [classifyValues, alookup_nil]
  | cons w rest ih =>
    by_cases hw : v = w
    · subst hw
      by_cases hc1 : minLeads ≤ leadsFor good valOf v + leadsFor bad valOf v
      · by_cases hc2 : hi ≤ (leadsFor good valOf v : Rat) /
            ((leadsFor good valOf v : Rat) + (leadsFor bad valOf v : Rat))
        · simp [classifyValues, hc1, hc2, alookup_cons]
        · by_cases hc3 : (leadsFor good valOf v : Rat) /
              ((leadsFor good valOf v : Rat) + (leadsFor bad valOf v : Rat)) ≤ lo
          · simp [classifyValues, hc1, hc2, hc3, alookup_cons, ih]
          · simp [classifyValues, hc1, hc2, hc3, ih]
      · simp [classifyValues, hc1, ih]
    · have hw2 : ¬w = v := fun h => hw h.symm
      by_cases hc1 : minLeads ≤ leadsFor good valOf w + leadsFor bad valOf w
      · by_cases hc2 : hi ≤ (leadsFor good valOf w : Rat) /
            ((leadsFor good valOf w : Rat) + (leadsFor bad valOf w : Rat))
        · simp [classifyValues, hc1, hc2, alookup_cons, hw2, hw, ih]
        · by_cases hc3 : (leadsFor good valOf w : Rat) /
              ((leadsFor good valOf w : Rat) + (leadsFor bad valOf w : Rat)) ≤ lo
          · simp [classifyValues, hc1, hc2, hc3, alookup_cons, hw2, hw, ih]
          · simp [classifyValues, hc1, hc2, hc3, hw, ih]
      · simp [classifyValues, hc1, hw, ih]

theorem alookup_classify_bad (good bad : List QualitySegment)
    (valOf : QualitySegment → String) (minLeads : Int) (hi lo : Rat)
    (vs : List String) (v : String) :
    alookup (classifyValues good bad valOf minLeads hi lo vs).2 v ≠ none ↔
      v ∈ vs ∧
      minLeads ≤ leadsFor good valOf v + leadsFor bad valOf v ∧
      ¬ hi ≤ (leadsFor good valOf v : Rat) /
        ((leadsFor good valOf v : Rat) + (leadsFor bad valOf v : Rat)) ∧
      (leadsFor good valOf v : Rat) /
        ((leadsFor good valOf v : Rat) + (leadsFor bad valOf v : Rat)) ≤ lo := by
  induction vs with
  | nil => simp [classifyValues, alookup_nil]
  | cons w rest ih =>
    by_cases hw : v = w
    · subst hw
      by_cases hc1 : minLeads ≤ leadsFor good valOf v + leadsFor bad valOf v
      · by_cases hc2 : hi ≤ (leadsFor good valOf v : Rat) /
            ((leadsFor good valOf v : Rat) + (leadsFor bad valOf v : Rat))
        · simp [classifyValues, hc1, hc2, alookup_cons, ih]
        · by_cases hc3 : (leadsFor good valOf v : Rat) /
              ((leadsFor good valOf v : Rat) + (leadsFor bad valOf v : Rat)) ≤ lo
          · simp [classifyValues, hc1, hc2, hc3, alookup_cons]
          · simp [classifyValues, hc1, hc2, hc3, ih]
      · simp [classifyValues, hc1, ih]
    · have hw2 : ¬w = v := fun h => hw h.symm
      by_cases hc1 : minLeads ≤ leadsFor good valOf w + leadsFor bad valOf w
      · by_cases hc2 : hi ≤ (leadsFor good valOf w : Rat) /
            ((leadsFor good valOf w : Rat) + (leadsFor bad valOf w : Rat))
        · simp [classifyValues, hc1, hc2, hw, ih]
        · by_cases hc3 : (leadsFor good valOf w : Rat) /
              ((leadsFor good valOf w : Rat) + (leadsFor bad valOf w : Rat)) ≤ lo
          · simp [classifyValues, hc1, hc2, hc3, alookup_cons, hw2, hw, ih]
          · simp [classifyValues, hc1, hc2, hc3, hw, ih]
      · simp [classifyValues, hc1, hw, ih]

/-- C8: in `analyzeFactors`, a single-attribute value with lead support
at least 5 and good-lead ratio exactly 0.7 lands in the good bucket; a
value with ratio strictly between 0.3 and 0.7 lands in neither bucket;
a value with support below 5 is excluded from both buckets regardless
of ratio; for two-attribute combinations the support threshold is 10
and the boundaries are ratio ≥ 0.8 for the good bucket and ≤ 0.2 for
the bad bucket, with below-support combinations excluded. -/
theorem C8_factor_boundaries (segs : List QualitySegment) (θ : Rat)
    (f : FactorField) (p : FactorField × FactorField) (v : String) :
    ((5 ≤ totalLeadsOf segs θ (fieldVal f) v →
        ratioOf segs θ (fieldVal f) v = 7 / 10 →
        alookup (analyzeFieldBuckets segs θ f).1 v ≠ none) ∧
     (5 ≤ totalLeadsOf segs θ (fieldVal f) v →
        3 / 10 < ratioOf segs θ (fieldVal f) v →
        ratioOf segs θ (fieldVal f) v < 7 / 10 →
        alookup (analyzeFieldBuckets segs θ f).1 v = none ∧
        alookup (analyzeFieldBuckets segs θ f).2 v = none) ∧
     (totalLeadsOf segs θ (fieldVal f) v < 5 →
        alookup (analyzeFieldBuckets segs θ f).1 v = none ∧
        alookup (analyzeFieldBuckets segs θ f).2 v = none)) ∧
    ((10 ≤ totalLeadsOf segs θ (comboVal p) v →
        4 / 5 ≤ ratioOf segs θ (comboVal p) v →
        alookup (analyzeComboBuckets segs θ p).1 v ≠ none) ∧
     (10 ≤ totalLeadsOf segs θ (comboVal p) v →
        ratioOf segs θ (comboVal p) v ≤ 1 / 5 →
        alookup (analyzeComboBuckets segs θ p).2 v ≠ none) ∧
     (totalLeadsOf segs θ (comboVal p) v < 10 →
        alookup (analyzeComboBuckets segs θ p).1 v = none ∧
        alookup (analyzeComboBuckets segs θ p).2 v = none)) := by
  have main : ∀ (valOf : QualitySegment → String) (minLeads : Int) (hi lo : Rat),
      hi ≤ 1 → 0 < minLeads → lo < hi →
      (let G := goodRoasSegs segs θ
       let B := badRoasSegs segs θ
       let cls := classifyValues G B valOf minLeads hi lo (allValuesOf G B valOf)
       (minLeads ≤ leadsFor G valOf v + leadsFor B valOf v →
         hi ≤ (leadsFor G valOf v : Rat) /
           ((leadsFor G valOf v : Rat) + (leadsFor B valOf v : Rat)) →
         alookup cls.1 v ≠ none) ∧
       (minLeads ≤ leadsFor G valOf v + leadsFor B valOf v →
         ¬ hi ≤ (leadsFor G valOf v : Rat) /
           ((leadsFor G valOf v : Rat) + (leadsFor B valOf v : Rat)) →
         (leadsFor G valOf v : Rat) /
           ((leadsFor G valOf v : Rat) + (leadsFor B valOf v : Rat)) ≤ lo →
         alookup cls.2 v ≠ none) ∧
       (¬ minLeads ≤ leadsFor G valOf v + leadsFor B valOf v →
         alookup cls.1 v = none ∧ alookup cls.2 v = none) ∧
       (minLeads ≤ leadsFor G valOf v + leadsFor B valOf v →
         ¬ hi ≤ (leadsFor G valOf v : Rat) /
           ((leadsFor G valOf v : Rat) + (leadsFor B valOf v : Rat)) →
         ¬ (leadsFor G valOf v : Rat) /
           ((leadsFor G valOf v : Rat) + (leadsFor B valOf v : Rat)) ≤ lo →
         alookup cls.1 v = none ∧ alookup cls.2 v = none)) := by
    intro valOf minLeads hi lo _ hmin _
    set G := goodRoasSegs segs θ
    set B := badRoasSegs segs θ
    have hmem : minLeads ≤ leadsFor G valOf v + leadsFor B valOf v →
        v ∈ allValuesOf G B valOf := by
      intro ht
      apply mem_allValues
      by_contra hz
      push_neg at hz
      rw [hz.1, hz.2] at ht
      omega
    refine ⟨?_, ?_, ?_, ?_⟩
    · intro ht hr
      exact (alookup_classify_good G B valOf minLeads hi lo _ v).mpr
        ⟨hmem ht, ht, hr⟩
    · intro ht hr1 hr2
      exact (alookup_classify_bad G B valOf minLeads hi lo _ v).mpr
        ⟨hmem ht, ht, hr1, hr2⟩
    · intro ht
      constructor
      · by_contra hcontra
        exact ht ((alookup_classify_good G B valOf minLeads hi lo _ v).mp
          hcontra).2.1
      · by_contra hcontra
        exact ht ((alookup_classify_bad G B valOf minLeads hi lo _ v).mp
          hcontra).2.1
    · intro _ hr1 hr2
      constructor
      · by_contra hcontra
        exact hr1 ((alookup_classify_good G B valOf minLeads hi lo _ v).mp
          hcontra).2.2
      · by_contra hcontra
        exact hr2 ((alookup_classify_bad G B valOf minLeads hi lo _ v).mp
          hcontra).2.2.2
  have hsingle := main (fieldVal f) 5 (7 / 10) (3 / 10) (by norm_num)
    (by norm_num) (by norm_num)
  have hcombo := main (comboVal p) 10 (4 / 5) (1 / 5) (by norm_num)
    (by norm_num) (by norm_num)
  simp only at hsingle hcombo
  constructor
  · refine ⟨?_, ?_, ?_⟩
    · intro ht hr
      exact hsingle.1 ht (le_of_eq hr.symm)
    · intro ht hr1 hr2
      exact hsingle.2.2.2 ht (not_le.mpr hr2) (not_le.mpr hr1)
    · intro ht
      exact hsingle.2.2.1 (not_le.mpr ht)
  · refine ⟨?_, ?_, ?_⟩
    · intro ht hr
      exact hcombo.1 ht hr
    · intro ht hr
      have hlt : ¬ (4 / 5 : Rat) ≤ ratioOf segs θ (comboVal p) v := by
        intro hge
        have : (4 / 5 : Rat) ≤ 1 / 5 := le_trans hge hr
        norm_num at this
      exact hcombo.2.1 ht hlt hr
    · intro ht
      exact hcombo.2.2.1 (not_le.mpr ht)

/-- Witness for C8: the good-ratio-0.7 single value, a ratio-0.8
combination, and a below-support value, on concrete cohorts. -/
theorem C8_witness :
    alookup (analyzeFieldBuckets [wSegGood, wSegBad] (3 / 2) .qlead).1 "X" ≠
      none ∧
    alookup (analyzeComboBuckets [wSegGood2, wSegBad2] (3 / 2)
      (.qlead, .ingresos)).1 "X + I" ≠ none ∧
    alookup (analyzeFieldBuckets [wSegGood, wSegBad] (3 / 2) .qlead).1 "Y" =
      none ∧
    alookup (analyzeFieldBuckets [wSegGood, wSegBad] (3 / 2) .qlead).2 "Y" =
      none :=
  ⟨(C8_factor_boundaries [wSegGood, wSegBad] (3 / 2) .qlead
      (.qlead, .ingresos) "X").1.1 (by decide) (by decide),
   (C8_factor_boundaries [wSegGood2, wSegBad2] (3 / 2) .qlead
      (.qlead, .ingresos) "X + I").2.1 (by decide) (by decide),
   ((C8_factor_boundaries [wSegGood, wSegBad] (3 / 2) .qlead
      (.qlead, .ingresos) "Y").1.2.2 (by decide)).1,
   ((C8_factor_boundaries [wSegGood, wSegBad] (3 / 2) .qlead
      (.qlead, .ingresos) "Y").1.2.2 (by decide)).2⟩

/-! ## C6 — quality-allocation conservation -/

theorem alookup_mem {α : Type} {l : List (String × α)} {k : String} {v : α}
    (h : alookup l k = some v) : (k, v) ∈ l := by
  induction l with
  | nil => simp [alookup] at h
  | cons hd tl ih =>
    rw [alookup_cons] at h
    by_cases hk : hd.1 = k
    · rw [if_pos hk] at h
      obtain rfl : hd.2 = v := by injection h
      have hhd : (k, hd.2) = hd := by
        rw [← hk]
      exact List.mem_cons.mpr (Or.inl hhd)
    · rw [if_neg hk] at h
      exact List.mem_cons_of_mem _ (ih h)

theorem alookup_append_left {α : Type} (l1 l2 : List (String × α)) (k : String)
    (v : α) (h : alookup l1 k = some v) : alookup (l1 ++ l2) k = some v := by
  induction l1 with
  | nil => simp [alookup] at h
  | cons hd tl ih =>
    rw [List.cons_append, alookup_cons]
    rw [alookup_cons] at h
    by_cases hk : hd.1 = k
    · rw [if_pos hk] at h ⊢; exact h
    · rw [if_neg hk] at h ⊢; exact ih h

theorem leadsTo_nil (K : String) : leadsTo [] K = 0 := rfl

theorem leadsTo_cons (kv : String × QualitySegment) (G : QGroups) (K : String) :
    leadsTo (kv :: G) K =
      (match alookup kv.2.ads K with | some a => a.leads | none => 0) +
        leadsTo G K := by
  simp [leadsTo]

theorem allocatedTo_nil (K : String) : allocatedTo [] K = 0 := rfl

theorem allocatedTo_cons (kv : String × QualitySegment) (G : QGroups)
    (K : String) :
    allocatedTo (kv :: G) K =
      (match alookup kv.2.ads K with | some a => a.spend | none => 0) +
        allocatedTo G K := by
  simp [allocatedTo]

theorem totalLeads_go (K : String) (groups : QGroups) (acc : Int) :
    groups.foldl
      (fun acc kv =>
        match alookup kv.2.ads K with
        | some a => acc + a.leads
        | none => acc) acc = acc + leadsTo groups K := by
  induction groups generalizing acc with
  | nil => simp [leadsTo_nil]
  | cons hd tl ih =>
    rw [List.foldl_cons, leadsTo_cons]
    rcases h : alookup hd.2.ads K with _ | a
    · simp only [h, ih]
      ring
    · simp only [h, ih]
      ring

theorem totalLeadsForAd_eq (groups : QGroups) (K : String) :
    totalLeadsForAd groups K = leadsTo groups K := by
  unfold totalLeadsForAd
  rw [totalLeads_go]
  ring

theorem allocApply_leads (s : SpendSegmentation) (A : String) (L : Int)
    (K : String) (kv : String × QualitySegment) :
    (match alookup (allocApply s A L kv).2.ads K with
     | some a => a.leads
     | none => 0) =
      (match alookup kv.2.ads K with | some a => a.leads | none => 0) := by
  unfold allocApply
  rcases h : alookup kv.2.ads A with _ | a
  · rfl
  · by_cases hL : 0 < L
    · simp only [if_pos hL]
      by_cases hK : K = A
      · subst hK
        rw [show alookup (aupdate kv.2.ads K _) K = _ from
          alookup_aupdate_self kv.2.ads K _, h]
        rfl
      · rw [alookup_aupdate_ne kv.2.ads A K _ hK]
    · simp only [if_neg hL]

theorem allocApply_spend_ne (s : SpendSegmentation) (A : String) (L : Int)
    (K : String) (kv : String × QualitySegment) (hK : K ≠ A) :
    (match alookup (allocApply s A L kv).2.ads K with
     | some a => a.spend
     | none => 0) =
      (match alookup kv.2.ads K with | some a => a.spend | none => 0) := by
  unfold allocApply
  rcases h : alookup kv.2.ads A with _ | a
  · rfl
  · by_cases hL : 0 < L
    · simp only [if_pos hL]
      rw [alookup_aupdate_ne kv.2.ads A K _ hK]
    · simp only [if_neg hL]

theorem leadsTo_map_allocApply (s : SpendSegmentation) (A : String) (L : Int)
    (K : String) (G : QGroups) :
    leadsTo (G.map (allocApply s A L)) K = leadsTo G K := by
  induction G with
  | nil => rfl
  | cons hd tl ih =>
    rw [List.map_cons, leadsTo_cons, leadsTo_cons, allocApply_leads]
    congr 1

theorem leadsTo_allocStep (G : QGroups) (s : SpendSegmentation) (K : String) :
    leadsTo (allocStep G s) K = leadsTo G K := by
  unfold allocStep
  exact leadsTo_map_allocApply _ _ _ _ _

theorem leadsTo_allocateSpend (l : List SpendSegmentation) (G : QGroups)
    (K : String) : leadsTo (allocateSpend G l) K = leadsTo G K := by
  induction l generalizing G with
  | nil => rfl
  | cons hd tl ih =>
    show leadsTo (allocateSpend (allocStep G hd) tl) K = leadsTo G K
    rw [ih, leadsTo_allocStep]

theorem allocatedTo_map_ne (s : SpendSegmentation) (A : String) (L : Int)
    (K : String) (hK : K ≠ A) (G : QGroups) :
    allocatedTo (G.map (allocApply s A L)) K = allocatedTo G K := by
  induction G with
  | nil => rfl
  | cons hd tl ih =>
    rw [List.map_cons, allocatedTo_cons, allocatedTo_cons,
      allocApply_spend_ne _ _ _ _ _ hK]
    congr 1

theorem allocatedTo_allocStep_ne (G : QGroups) (s : SpendSegmentation)
    (K : String) (hK : K ≠ spendAdKeyOf s) :
    allocatedTo (allocStep G s) K = allocatedTo G K := by
  unfold allocStep
  exact allocatedTo_map_ne _ _ _ _ hK _

theorem allocatedTo_allocateSpend_frame (l : List SpendSegmentation)
    (G : QGroups) (K : String) (hl : ∀ x ∈ l, spendAdKeyOf x ≠ K) :
    allocatedTo (allocateSpend G l) K = allocatedTo G K := by
  induction l generalizing G with
  | nil => rfl
  | cons hd tl ih =>
    show allocatedTo (allocateSpend (allocStep G hd) tl) K = allocatedTo G K
    rw [ih _ (fun x hx => hl x (List.mem_cons_of_mem _ hx)),
      allocatedTo_allocStep_ne _ _ _
        (fun h => hl hd (List.mem_cons_self _ _) h.symm)]

theorem allocatedTo_map_self (s : SpendSegmentation) (A : String) (L : Int)
    (hL : 0 < L) (G : QGroups) :
    allocatedTo (G.map (allocApply s A L)) A =
      s.spend * ((leadsTo G A : Rat) / (L : Rat)) := by
  induction G with
  | nil =>
    rw [List.map_nil, allocatedTo_nil, leadsTo_nil]
    norm_num
  | cons hd tl ih =>
    rw [List.map_cons, allocatedTo_cons, ih, leadsTo_cons]
    rcases h : alookup hd.2.ads A with _ | a
    · have hid : allocApply s A L hd = hd := by unfold allocApply; rw [h]
      rw [hid, h]
      push_cast
      ring
    · have hout : allocApply s A L hd =
          (hd.1, { hd.2 with
            ads := (aupdate hd.2.ads A (fun a2 =>
              { a2 with spend := s.spend * ((a.leads : Rat) / (L : Rat)) })),
            total_spend := hd.2.total_spend +
              s.spend * ((a.leads : Rat) / (L : Rat)) }) := by
        unfold allocApply
        simp only [h, if_pos hL]
      rw [hout]
      have hlk : alookup
          (aupdate hd.2.ads A (fun a2 =>
            { a2 with spend := s.spend * ((a.leads : Rat) / (L : Rat)) })) A =
          some { a with spend := s.spend * ((a.leads : Rat) / (L : Rat)) } := by
        rw [alookup_aupdate_self, h]
        rfl
      simp only [h, hlk]
      push_cast
      ring

theorem allocatedTo_allocStep_self (G : QGroups) (s : SpendSegmentation)
    (hL : 0 < totalLeadsForAd G (spendAdKeyOf s)) :
    allocatedTo (allocStep G s) (spendAdKeyOf s) = s.spend := by
  unfold allocStep
  rw [allocatedTo_map_self s _ _ hL G]
  rw [totalLeadsForAd_eq] at hL ⊢
  have hne : ((leadsTo G (spendAdKeyOf s) : Int) : Rat) ≠ 0 := by
    have hpos : (0 : Rat) < ((leadsTo G (spendAdKeyOf s) : Int) : Rat) := by
      exact_mod_cast hL
    exact ne_of_gt hpos
  rw [div_self hne, mul_one]

theorem allocStep_id_of_L0 (G : QGroups) (s : SpendSegmentation)
    (h : totalLeadsForAd G (spendAdKeyOf s) = 0) : allocStep G s = G := by
  unfold allocStep
  rw [h]
  have hfun : ∀ kv, allocApply s (spendAdKeyOf s) 0 kv = kv := by
    intro kv
    unfold allocApply
    rcases hh : alookup kv.2.ads (spendAdKeyOf s) with _ | a
    · rfl
    · norm_num
  rw [show allocApply s (spendAdKeyOf s) 0 = id from funext hfun, List.map_id]

theorem ZeroAt_allocStep (G : QGroups) (s : SpendSegmentation) (K : String)
    (hK : K ≠ spendAdKeyOf s) (h : ZeroAt K G) : ZeroAt K (allocStep G s) := by
  intro kv hkv a ha
  obtain ⟨kv0, hkv0, rfl⟩ := List.mem_map.mp hkv
  apply h kv0 hkv0 a
  rw [← ha]
  unfold allocApply
  rcases hh : alookup kv0.2.ads (spendAdKeyOf s) with _ | b
  · rfl
  · by_cases hL : 0 < totalLeadsForAd G (spendAdKeyOf s)
    · simp only [if_pos hL]
      rw [alookup_aupdate_ne kv0.2.ads (spendAdKeyOf s) K _ hK]
    · simp only [if_neg hL]

theorem ZeroAt_allocateSpend (l : List SpendSegmentation) (G : QGroups)
    (K : String) (hl : ∀ x ∈ l, spendAdKeyOf x ≠ K) (h : ZeroAt K G) :
    ZeroAt K (allocateSpend G l) := by
  induction l generalizing G with
  | nil => exact h
  | cons hd tl ih =>
    show ZeroAt K (allocateSpend (allocStep G hd) tl)
    exact ih _ (fun x hx => hl x (List.mem_cons_of_mem _ hx))
      (ZeroAt_allocStep G hd K
        (fun hk => hl hd (List.mem_cons_self _ _) hk.symm) h)

theorem allocatedTo_of_ZeroAt (G : QGroups) (K : String) (h : ZeroAt K G) :
    allocatedTo G K = 0 := by
  induction G with
  | nil => rfl
  | cons hd tl ih =>
    rw [allocatedTo_cons]
    have htl := ih (fun kv hkv => h kv (List.mem_cons_of_mem _ hkv))
    rcases hh : alookup hd.2.ads K with _ | a
    · simp only [hh, htl]
      ring
    · simp only [hh, htl]
      rw [h hd (List.mem_cons_self _ _) a hh]
      ring

theorem qMerge_preserves_ZeroAt (K : String) (r : QRow) (seg : QualitySegment)
    (h : ∀ a, alookup seg.ads K = some a → a.spend = 0) :
    ∀ a, alookup (qMerge r seg).ads K = some a → a.spend = 0 := by
  intro a ha
  unfold qMerge at ha
  simp only at ha
  have hbase : ∀ a2, alookup
      (match alookup seg.ads (qAdKeyOf r) with
       | some _ => seg.ads
       | none => seg.ads ++ [(qAdKeyOf r, freshQAd r)]) K = some a2 →
      a2.spend = 0 := by
    intro a2 ha2
    rcases hx : alookup seg.ads (qAdKeyOf r) with _ | b
    · rw [hx] at ha2
      rcases hy : alookup seg.ads K with _ | c
      · rw [alookup_append_right _ _ _ hy, alookup_cons] at ha2
        by_cases hk : qAdKeyOf r = K
        · rw [if_pos hk] at ha2
          obtain rfl : freshQAd r = a2 := by injection ha2
          rfl
        · rw [if_neg hk] at ha2
          simp [alookup] at ha2
      · rw [alookup_append_left _ _ _ _ hy] at ha2
        obtain rfl : c = a2 := by injection ha2
        exact h c hy
    · rw [hx] at ha2
      exact h a2 ha2
  by_cases hk : K = qAdKeyOf r
  · rw [hk] at ha
    rw [alookup_aupdate_self] at ha
    rcases hz : alookup
        (match alookup seg.ads (qAdKeyOf r) with
         | some _ => seg.ads
         | none => seg.ads ++ [(qAdKeyOf r, freshQAd r)]) (qAdKeyOf r) with _ | b
    · rw [hz] at ha
      simp at ha
    · rw [hz] at ha
      obtain rfl : _ = a := by injection ha
      have hb := hbase b (by rw [hk]; exact hz)
      simpa using hb
  · rw [alookup_aupdate_ne _ _ _ _ hk] at ha
    exact hbase a ha

theorem qGroup_ZeroAt (rows : List QRow) (K : String) :
    ZeroAt K (qGroup rows) := by
  unfold qGroup
  apply foldl_preserve qGroupStep (ZeroAt K) _ rows []
  · intro kv hkv
    simp at hkv
  · intro groups r hg
    intro kv hkv a ha
    unfold qGroupStep at hkv
    simp only at hkv
    obtain ⟨kv2, hm2, hor⟩ := mem_aupdate hkv
    have h2 : ∀ a2, alookup kv2.2.ads K = some a2 → a2.spend = 0 := by
      rcases hx : alookup groups (qualityKeyOf r) with _ | v
      · rw [hx] at hm2
        rcases List.mem_append.mp hm2 with hmm | hmm
        · exact fun a2 ha2 => hg kv2 hmm a2 ha2
        · simp only [List.mem_singleton] at hmm
          subst hmm
          intro a2 ha2
          simp [freshQSeg, alookup] at ha2
      · rw [hx] at hm2
        exact fun a2 ha2 => hg kv2 hm2 a2 ha2
    rcases hor with rfl | ⟨_, hval⟩
    · exact h2 a ha
    · rw [hval] at ha
      exact qMerge_preserves_ZeroAt K r kv2.2 h2 a ha

/-- C6: for a spend key `K` (with distinct keys over the spend map, as
a JS `Record` guarantees), if the total leads recorded for `K` across
all cohorts are positive, the allocation pass distributes exactly
`spend[K]` over the cohorts containing `K`; if the total is zero, no
spend for `K` is allocated to any cohort. -/
theorem C6_quality_allocation_conservation (rows : List QRow)
    (items : List SpendSegmentation) (segData : SpendSegmentation)
    (hmem : segData ∈ items) (hnd : (items.map spendAdKeyOf).Nodup) :
    (0 < totalLeadsForAd (qGroup rows) (spendAdKeyOf segData) →
      allocatedTo (allocateSpend (qGroup rows) items) (spendAdKeyOf segData) =
        segData.spend) ∧
    (totalLeadsForAd (qGroup rows) (spendAdKeyOf segData) = 0 →
      allocatedTo (allocateSpend (qGroup rows) items) (spendAdKeyOf segData) =
        0 ∧
      ZeroAt (spendAdKeyOf segData) (allocateSpend (qGroup rows) items)) := by
  obtain ⟨l1, l2, rfl⟩ := List.append_of_mem hmem
  rw [List.map_append, List.map_cons] at hnd
  have hdis := List.disjoint_of_nodup_append hnd
  have hnd2 := (List.nodup_append.mp hnd).2.1
  have h1 : ∀ x ∈ l1, spendAdKeyOf x ≠ spendAdKeyOf segData := by
    intro x hx hkey
    exact hdis (List.mem_map.mpr ⟨x, hx, hkey⟩) (List.mem_cons_self _ _)
  have h2 : ∀ x ∈ l2, spendAdKeyOf x ≠ spendAdKeyOf segData := by
    intro x hx hkey
    exact (List.nodup_cons.mp hnd2).1 (List.mem_map.mpr ⟨x, hx, hkey⟩)
  have hsplit : allocateSpend (qGroup rows) (l1 ++ segData :: l2) =
      allocateSpend (allocStep (allocateSpend (qGroup rows) l1) segData) l2 := by
    unfold allocateSpend
    rw [List.foldl_append, List.foldl_cons]
  have hlds : totalLeadsForAd (allocateSpend (qGroup rows) l1)
      (spendAdKeyOf segData) =
      totalLeadsForAd (qGroup rows) (spendAdKeyOf segData) := by
    rw [totalLeadsForAd_eq, totalLeadsForAd_eq, leadsTo_allocateSpend]
  constructor
  · intro hL
    rw [hsplit, allocatedTo_allocateSpend_frame _ _ _ h2,
      allocatedTo_allocStep_self _ _ (by rw [hlds]; exact hL)]
  · intro hL0
    have hstep : allocStep (allocateSpend (qGroup rows) l1) segData =
        allocateSpend (qGroup rows) l1 :=
      allocStep_id_of_L0 _ _ (by rw [hlds]; exact hL0)
    have hzero : ZeroAt (spendAdKeyOf segData)
        (allocateSpend (qGroup rows) (l1 ++ segData :: l2)) := by
      rw [hsplit, hstep]
      exact ZeroAt_allocateSpend _ _ _ h2
        (ZeroAt_allocateSpend _ _ _ h1 (qGroup_ZeroAt rows _))
    exact ⟨allocatedTo_of_ZeroAt _ _ hzero, hzero⟩

/-- Witness for C6: one spend key with positive leads receives exactly
its spend; a key with no leads gets nothing. -/
theorem C6_witness :
    allocatedTo (allocateSpend (qGroup [qRowA, qRowC]) [qSpendA])
      (spendAdKeyOf qSpendA) = qSpendA.spend ∧
    allocatedTo (allocateSpend (qGroup []) [qSpendA]) (spendAdKeyOf qSpendA) =
      0 :=
  ⟨(C6_quality_allocation_conservation [qRowA, qRowC] [qSpendA] qSpendA
      (by decide) (by decide)).1 (by decide),
   ((C6_quality_allocation_conservation [] [qSpendA] qSpendA (by decide)
      (by decide)).2 (by decide)).1⟩

/-! ## Supporting result: `processDashboardData` conserves spend

This backs the C1 divergence analysis: the interactive reconciliation
path does satisfy the conservation the spec states, while the Mongo
path does not (see `C1_mongo_spend_double_counted`). -/

theorem revMatchSegs_spends (adNorm segNorm : String) (r : RevRow) :
    ∀ segs segs2, revMatchSegs adNorm segNorm r segs = some segs2 →
      segs2.map Seg.spend_allocated = segs.map Seg.spend_allocated
  | [], _, h => by simp [revMatchSegs] at h
  | s :: rest, segs2, h => by
    unfold revMatchSegs at h
    by_cases hname : normS s.name = segNorm
    · rw [if_pos hname] at h
      obtain rfl : _ = segs2 := by injection h
      simp only [List.map_cons]
      congr 1
      by_cases hkey : (adNorm, segNorm, r.total_revenue, r.total_leads) ∈
          s.processed_bd_keys
      · rw [if_pos hkey]
      · rw [if_neg hkey]
    · rw [if_neg hname] at h
      rcases hx : revMatchSegs adNorm segNorm r rest with _ | rest2
      · rw [hx] at h
        simp at h
      · rw [hx] at h
        obtain rfl : s :: rest2 = segs2 := by injection h
        simp only [List.map_cons]
        congr 1
        exact revMatchSegs_spends adNorm segNorm r rest rest2 hx

theorem segSpendSum_revUpdate (adNorm segNorm : String) (r : RevRow)
    (ad : AdEntry) :
    segSpendSum
      (let segs2 :=
        match revMatchSegs adNorm segNorm r ad.segmentations with
        | some segs2 => segs2
        | none => ad.segmentations ++ [freshRevSeg r]
      { ad with segmentations := segs2,
                total_revenue := ad.total_revenue + r.total_revenue,
                total_leads := ad.total_leads + r.total_leads,
                total_sales := ad.total_sales + r.total_sales }) =
      segSpendSum ad := by
  rcases hx : revMatchSegs adNorm segNorm r ad.segmentations with _ | segs2
  · simp only [hx, segSpendSum, List.map_append, List.sum_append, freshRevSeg]
    simp
  · simp only [hx, segSpendSum]
    rw [revMatchSegs_spends adNorm segNorm r ad.segmentations segs2 hx]

theorem spendMatchSegs_spends (adId segNorm : String) (spend : Rat) :
    ∀ segs segs2, spendMatchSegs adId segNorm spend segs = some segs2 →
      (segs2.map Seg.spend_allocated).sum =
        (segs.map Seg.spend_allocated).sum + spend
  | [], _, h => by simp [spendMatchSegs] at h
  | s :: rest, segs2, h => by
    unfold spendMatchSegs at h
    by_cases hcond : (adId ≠ "" ∧ s.ad_id ≠ "" ∧ adId = s.ad_id) ∨
        normS s.name = segNorm
    · rw [if_pos hcond] at h
      obtain rfl : _ = segs2 := by injection h
      simp only [List.map_cons, List.sum_cons]
      ring
    · rw [if_neg hcond] at h
      rcases hx : spendMatchSegs adId segNorm spend rest with _ | rest2
      · rw [hx] at h
        simp at h
      · rw [hx] at h
        obtain rfl : s :: rest2 = segs2 := by injection h
        simp only [List.map_cons, List.sum_cons]
        rw [spendMatchSegs_spends adId segNorm spend rest rest2 hx]
        ring

theorem seedOrganic_inv (organic : Option OrganicData) :
    SpendInv (seedOrganic organic) := by
  intro kv hkv
  rcases organic with _ | od
  · simp [seedOrganic] at hkv
  · simp only [seedOrganic] at hkv
    by_cases hpos : 0 < od.total_sales
    · rw [if_pos hpos] at hkv
      simp only [List.mem_singleton] at hkv
      subst hkv
      simp [segSpendSum, organicSeg]
    · rw [if_neg hpos] at hkv
      simp at hkv

theorem seedOrganic_sum (organic : Option OrganicData) :
    adsSpendSum (seedOrganic organic) = 0 := by
  rcases organic with _ | od
  · rfl
  · simp only [seedOrganic]
    by_cases hpos : 0 < od.total_sales
    · rw [if_pos hpos]
      simp [adsSpendSum]
    · rw [if_neg hpos]
      rfl

theorem revStep_inv (spendMapping : List (String × String)) (ads : AdsMap)
    (r : RevRow) (h : SpendInv ads) : SpendInv (revStep spendMapping ads r) := by
  intro kv hkv
  unfold revStep at hkv
  obtain ⟨kv2, hm2, hor⟩ := mem_aupdate hkv
  have h2 : kv2.2.total_spend = segSpendSum kv2.2 := by
    rcases hx : alookup ads (normS r.ANUNCIO) with _ | v
    · simp only [hx] at hm2
      rcases List.mem_append.mp hm2 with hmm | hmm
      · exact h kv2 hmm
      · simp only [List.mem_singleton] at hmm
        subst hmm
        simp [segSpendSum]
    · simp only [hx] at hm2
      exact h kv2 hm2
  rcases hor with rfl | ⟨_, hval⟩
  · exact h2
  · rw [hval]
    show kv2.2.total_spend = _
    rw [h2]
    exact (segSpendSum_revUpdate (normS r.ANUNCIO) (normS r.SEGMENTACION) r
      kv2.2).symm

theorem adsSpendSum_aupdate (ads : AdsMap) (k : String)
    (f : AdEntry → AdEntry)
    (hf : ∀ v, (f v).total_spend = v.total_spend) :
    adsSpendSum (aupdate ads k f) = adsSpendSum ads := by
  induction ads with
  | nil => rfl
  | cons hd tl ih =>
    rw [aupdate_cons]
    by_cases hk : hd.1 = k
    · rw [if_pos hk]
      simp only [adsSpendSum, List.map_cons, List.sum_cons]
      rw [hf]
    · rw [if_neg hk]
      simp only [adsSpendSum, List.map_cons, List.sum_cons] at ih ⊢
      rw [ih]

theorem revStep_sum (spendMapping : List (String × String)) (ads : AdsMap)
    (r : RevRow) : adsSpendSum (revStep spendMapping ads r) = adsSpendSum ads := by
  unfold revStep
  rcases hx : alookup ads (normS r.ANUNCIO) with _ | v
  · simp only [hx]
    rw [adsSpendSum_aupdate]
    · simp only [adsSpendSum, List.map_append, List.sum_append]
      simp
    · intro v
      rfl
  · simp only [hx]
    apply adsSpendSum_aupdate
    intro v
    rfl

theorem sum_aupdate_add (ads : AdsMap) (k : String) (f : AdEntry → AdEntry)
    (spend : Rat) (hf : ∀ v, (f v).total_spend = v.total_spend + spend) :
    ∀ (v : AdEntry), alookup ads k = some v →
      adsSpendSum (aupdate ads k f) = adsSpendSum ads + spend := by
  intro v hv
  induction ads with
  | nil => simp [alookup] at hv
  | cons hd tl ih =>
    rw [alookup_cons] at hv
    rw [aupdate_cons]
    by_cases hk : hd.1 = k
    · rw [if_pos hk]
      simp only [adsSpendSum, List.map_cons, List.sum_cons]
      rw [hf]
      ring
    · rw [if_neg hk] at hv ⊢
      simp only [adsSpendSum, List.map_cons, List.sum_cons] at ih ⊢
      rw [ih hv]
      ring

theorem spendStep_inv (ads : AdsMap) (s : SpendSegmentation)
    (h : SpendInv ads) : SpendInv (spendStep ads s) := by
  intro kv hkv
  unfold spendStep at hkv
  rcases hx : alookup ads (findMatchingAdKey s ads) with _ | v
  · simp only [hx] at hkv
    rcases List.mem_append.mp hkv with hmm | hmm
    · exact h kv hmm
    · simp only [List.mem_singleton] at hmm
      subst hmm
      simp [newSpendAd, segSpendSum, freshSpendSeg]
  · simp only [hx] at hkv
    obtain ⟨kv2, hm2, hor⟩ := mem_aupdate hkv
    have h2 := h kv2 hm2
    rcases hor with rfl | ⟨_, hval⟩
    · exact h2
    · rw [hval]
      show kv2.2.total_spend + s.spend = _
      rcases hy : spendMatchSegs s.ad_id (normS s.segmentation_name) s.spend
          kv2.2.segmentations with _ | segs2
      · simp only [hy, segSpendSum, List.map_append, List.sum_append,
          freshSpendSeg]
        rw [h2]
        simp [segSpendSum]
      · simp only [hy, segSpendSum]
        rw [spendMatchSegs_spends _ _ _ _ _ hy, h2]
        rfl

theorem spendStep_sum (ads : AdsMap) (s : SpendSegmentation) :
    adsSpendSum (spendStep ads s) = adsSpendSum ads + s.spend := by
  unfold spendStep
  rcases hx : alookup ads (findMatchingAdKey s ads) with _ | v
  · simp only [hx]
    simp only [adsSpendSum, List.map_append, List.sum_append, List.map_cons,
      List.map_nil, List.sum_cons, List.sum_nil, newSpendAd]
    ring
  · simp only [hx]
    apply sum_aupdate_add ads _ _ s.spend _ v hx
    intro w
    rfl

theorem buildLedger_inv (organic : Option OrganicData)
    (spendMapping : List (String × String)) (revRows : List RevRow)
    (spendItems : List SpendSegmentation) :
    SpendInv (buildLedger organic spendMapping revRows spendItems) := by
  unfold buildLedger assignSpends
  apply foldl_preserve spendStep SpendInv (fun ads s h => spendStep_inv ads s h)
  unfold revenuePhase
  apply foldl_preserve (revStep spendMapping) SpendInv
    (fun ads r h => revStep_inv spendMapping ads r h)
  exact seedOrganic_inv organic

theorem buildLedger_sum (organic : Option OrganicData)
    (spendMapping : List (String × String)) (revRows : List RevRow)
    (spendItems : List SpendSegmentation) :
    adsSpendSum (buildLedger organic spendMapping revRows spendItems) =
      (spendItems.map SpendSegmentation.spend).sum := by
  unfold buildLedger
  have hrev : ∀ (rows : List RevRow) (ads : AdsMap), adsSpendSum ads = 0 →
      adsSpendSum (rows.foldl (revStep spendMapping) ads) = 0 := by
    intro rows
    induction rows with
    | nil => exact fun ads h0 => h0
    | cons hd tl ih =>
      intro ads h0
      rw [List.foldl_cons]
      apply ih
      rw [revStep_sum, h0]
  have hgen2 : ∀ (items : List SpendSegmentation) (ads : AdsMap),
      adsSpendSum (assignSpends ads items) =
        adsSpendSum ads + (items.map SpendSegmentation.spend).sum := by
    intro items
    induction items with
    | nil =>
      intro ads
      simp [assignSpends]
    | cons hd tl ih =>
      intro ads
      show adsSpendSum (assignSpends (spendStep ads hd) tl) = _
      rw [ih, spendStep_sum]
      simp only [List.map_cons, List.sum_cons]
      ring
  rw [hgen2]
  unfold revenuePhase
  rw [hrev revRows (seedOrganic organic) (seedOrganic_sum organic)]
  ring

/-- The interactive reconciliation satisfies the spec's conservation:
every finalized ad's `total_spend` is the 2-decimal rounding of its
segmentations' allocated spend, and the un-rounded ledger spend equals
the total input spend exactly. -/
theorem spendConservation_processDashboardData (organic : Option OrganicData)
    (spendMapping : List (String × String)) (revRows : List RevRow)
    (spendItems : List SpendSegmentation) :
    (∀ kv ∈ (computeTotals (buildLedger organic spendMapping revRows
        spendItems)).1, kv.2.total_spend = round2 (segSpendSum kv.2)) ∧
    adsSpendSum (buildLedger organic spendMapping revRows spendItems) =
      (spendItems.map SpendSegmentation.spend).sum := by
  constructor
  · intro kv hkv
    have hinv := buildLedger_inv organic spendMapping revRows spendItems
    have hfin := computeTotals_go
      (buildLedger organic spendMapping revRows spendItems) ([], 0, 0)
    unfold computeTotals at hkv
    rw [hfin] at hkv
    simp only [List.nil_append] at hkv
    obtain ⟨kv2, hm2, hval⟩ := List.mem_map.mp hkv
    subst hval
    have h2 := hinv kv2 hm2
    show (finalizeAd kv2.2).total_spend = round2 (segSpendSum (finalizeAd kv2.2))
    have hsegs : (finalizeAd kv2.2).segmentations = kv2.2.segmentations := rfl
    unfold segSpendSum
    rw [hsegs]
    show round2 kv2.2.total_spend = _
    rw [h2]
    rfl
  · exact buildLedger_sum organic spendMapping revRows spendItems

/-! ## C2 — revenue dedup idempotence -/

/-- C2: processing the identical revenue row twice is not idempotent:
the ad-level totals (accumulated outside the dedup guard,
dashboardActions.ts lines 656–658) and even the segmentation-level
figures (the first push never records its own dedup key,
lines 641–654) both double, 600 versus 300. -/
theorem C2_dedup_not_idempotent :
    (alookup (revenuePhase [] [] [rowAdX, rowAdX]) "adx").map
        (fun ad => (ad.total_revenue, ad.segmentations.map Seg.revenue)) =
      some (600, [600]) ∧
    (alookup (revenuePhase [] [] [rowAdX]) "adx").map
        (fun ad => (ad.total_revenue, ad.segmentations.map Seg.revenue)) =
      some (300, [300]) := by
  constructor <;> decide

/-! ## C4 — amended normalization idempotence

The normalizer's output is canonical: only `[a-z0-9 _-]` characters, no
two adjacent spaces, no leading/trailing space.  On canonical strings
every stage of `cleanDisplayName`/`normalizeAdName` is the identity —
except the `"-"`/`"undefined"` sentinel collision exhibited by
`C4_counterexample`. -/

theorem isJsWs_toNat {c : Char} (h : isJsWs c = true) :
    c.toNat = 32 ∨ c.toNat = 9 ∨ c.toNat = 10 ∨ c.toNat = 13 ∨ c.toNat = 11 ∨
    c.toNat = 12 ∨ c.toNat = 0xA0 ∨ c.toNat = 0x1680 ∨
    (0x2000 ≤ c.toNat ∧ c.toNat ≤ 0x200A) ∨ c.toNat = 0x2028 ∨
    c.toNat = 0x2029 ∨ c.toNat = 0x202F ∨ c.toNat = 0x205F ∨
    c.toNat = 0x3000 ∨ c.toNat = 0xFEFF := by
  unfold isJsWs at h
  simp only [Bool.or_eq_true, Bool.and_eq_true, decide_eq_true_eq] at h
  rcases h with ((((((((((((((h | h) | h) | h) | h) | h) | h) | h) | h) | h) | h) | h) | h) | h) | h)
  · exact Or.inl (by rw [h]; decide)
  · exact Or.inr (Or.inl (by rw [h]; decide))
  · exact Or.inr (Or.inr (Or.inl (by rw [h]; decide)))
  · exact Or.inr (Or.inr (Or.inr (Or.inl (by rw [h]; decide))))
  · refine Or.inr (Or.inr (Or.inr (Or.inr (Or.inl ?_))))
    have hv : c.val.toNat = (11 : UInt32).toNat := by rw [h]
    exact hv
  · refine Or.inr (Or.inr (Or.inr (Or.inr (Or.inr (Or.inl ?_)))))
    have hv : c.val.toNat = (12 : UInt32).toNat := by rw [h]
    exact hv
  · refine Or.inr (Or.inr (Or.inr (Or.inr (Or.inr (Or.inr (Or.inl ?_))))))
    have hv : c.val.toNat = (0xA0 : UInt32).toNat := by rw [h]
    exact hv
  · refine Or.inr (Or.inr (Or.inr (Or.inr (Or.inr (Or.inr (Or.inr (Or.inl ?_)))))))
    have hv : c.val.toNat = (0x1680 : UInt32).toNat := by rw [h]
    exact hv
  · refine Or.inr (Or.inr (Or.inr (Or.inr (Or.inr (Or.inr (Or.inr (Or.inr (Or.inl ?_))))))))
    exact ⟨h.1, h.2⟩
  · refine Or.inr (Or.inr (Or.inr (Or.inr (Or.inr (Or.inr (Or.inr (Or.inr (Or.inr (Or.inl ?_)))))))))
    have hv : c.val.toNat = (0x2028 : UInt32).toNat := by rw [h]
    exact hv
  · refine Or.inr (Or.inr (Or.inr (Or.inr (Or.inr (Or.inr (Or.inr (Or.inr (Or.inr (Or.inr (Or.inl ?_))))))))))
    have hv : c.val.toNat = (0x2029 : UInt32).toNat := by rw [h]
    exact hv
  · refine Or.inr (Or.inr (Or.inr (Or.inr (Or.inr (Or.inr (Or.inr (Or.inr (Or.inr (Or.inr (Or.inr (Or.inl ?_)))))))))))
    have hv : c.val.toNat = (0x202F : UInt32).toNat := by rw [h]
    exact hv
  · refine Or.inr (Or.inr (Or.inr (Or.inr (Or.inr (Or.inr (Or.inr (Or.inr (Or.inr (Or.inr (Or.inr (Or.inr (Or.inl ?_))))))))))))
    have hv : c.val.toNat = (0x205F : UInt32).toNat := by rw [h]
    exact hv
  · refine Or.inr (Or.inr (Or.inr (Or.inr (Or.inr (Or.inr (Or.inr (Or.inr (Or.inr (Or.inr (Or.inr (Or.inr (Or.inr (Or.inl ?_)))))))))))))
    have hv : c.val.toNat = (0x3000 : UInt32).toNat := by rw [h]
    exact hv
  · refine Or.inr (Or.inr (Or.inr (Or.inr (Or.inr (Or.inr (Or.inr (Or.inr (Or.inr (Or.inr (Or.inr (Or.inr (Or.inr (Or.inr ?_)))))))))))))
    have hv : c.val.toNat = (0xFEFF : UInt32).toNat := by rw [h]
    exact hv

theorem space_isJsWs : isJsWs ' ' = true := by decide

theorem good_of_keep_notWs {c : Char} (hk : keepChar c = true)
    (hw : isJsWs c = false) : GoodCharP c := by
  unfold keepChar at hk
  simp only [Bool.or_eq_true, Bool.and_eq_true, decide_eq_true_eq] at hk
  rcases hk with (((h | h) | h) | h) | h
  · exact Or.inl ⟨h.1, h.2⟩
  · exact Or.inr (Or.inl ⟨h.1, h.2⟩)
  · rw [h] at hw
    exact absurd hw (by decide)
  · exact Or.inr (Or.inr (Or.inl (by rw [h]; decide)))
  · exact Or.inr (Or.inr (Or.inr (Or.inl (by rw [h]; decide))))

theorem goodChar_not_ws {c : Char} (h : GoodCharP c) (hne : c.toNat ≠ 32) :
    isJsWs c = false := by
  rcases hb : isJsWs c with _ | _
  · rfl
  · exfalso
    have := isJsWs_toNat hb
    rcases h with h | h | h | h | h <;> omega

theorem goodChar_keep {c : Char} (h : GoodCharP c) : keepChar c = true := by
  unfold keepChar
  simp only [Bool.or_eq_true, Bool.and_eq_true, decide_eq_true_eq]
  rcases h with h | h | h | h | h
  · exact Or.inl (Or.inl (Or.inl (Or.inl ⟨h.1, h.2⟩)))
  · exact Or.inl (Or.inl (Or.inl (Or.inr ⟨h.1, h.2⟩)))
  · refine Or.inl (Or.inr ?_)
    have hc : c = '-' := Char.ext (UInt32.ext h)
    rw [hc]
  · refine Or.inr ?_
    have hc : c = '_' := Char.ext (UInt32.ext h)
    rw [hc]
  · refine Or.inl (Or.inl (Or.inr ?_))
    have hc : c = ' ' := Char.ext (UInt32.ext h)
    rw [hc]
    decide

theorem goodChar_lower_fix {c : Char} (h : GoodCharP c) : jsLowerChar c = c := by
  unfold jsLowerChar
  rw [if_neg, if_neg]
  · rintro ⟨h1, h2, h3⟩
    have hx : (0xC0 : Nat) ≤ c.toNat := h1
    rcases h with h | h | h | h | h <;> omega
  · rintro ⟨h1, h2⟩
    have hx : ('A' : Char).toNat ≤ c.toNat := h1
    have hy : c.toNat ≤ ('Z' : Char).toNat := h2
    have hA : ('A' : Char).toNat = 65 := rfl
    have hZ : ('Z' : Char).toNat = 90 := rfl
    rcases h with h | h | h | h | h <;> omega

theorem goodChar_nfd_fix {c : Char} (h : GoodCharP c) : nfdChar c = [c] := by
  have hlt : c.toNat ≤ 122 := by
    rcases h with h | h | h | h | h <;> omega
  unfold nfdChar
  split <;> first
    | rfl
    | exact absurd hlt (by decide)

theorem goodChar_not_mark {c : Char} (h : GoodCharP c) :
    isCombiningMark c = false := by
  have : ¬ isCombiningMark c = true := by
    unfold isCombiningMark
    rw [Bool.and_eq_true, decide_eq_true_eq, decide_eq_true_eq]
    rintro ⟨h1, _⟩
    have hx : (0x300 : Nat) ≤ c.toNat := h1
    rcases h with h | h | h | h | h <;> omega
  exact Bool.eq_false_iff.mpr this

theorem goodChar_ws_space {c : Char} (h : GoodCharP c) (hw : isJsWs c = true) :
    c = ' ' := by
  by_cases h32 : c.toNat = 32
  · exact Char.ext (UInt32.ext h32)
  · exact absurd hw (by simp [goodChar_not_ws h h32])

theorem noTwoSpaces_tail {c : Char} {l : List Char}
    (h : noTwoSpaces (c :: l) = true) : noTwoSpaces l = true := by
  cases l with
  | nil => rfl
  | cons d t =>
    unfold noTwoSpaces at h
    rw [Bool.and_eq_true] at h
    exact h.2

theorem noTwoSpaces_append_left :
    ∀ (l1 l2 : List Char), noTwoSpaces (l1 ++ l2) = true →
      noTwoSpaces l1 = true
  | [], _, _ => rfl
  | [_], _, _ => rfl
  | c1 :: c2 :: t, l2, h => by
    simp only [List.cons_append] at h
    unfold noTwoSpaces at h ⊢
    rw [Bool.and_eq_true] at h ⊢
    refine ⟨h.1, ?_⟩
    exact noTwoSpaces_append_left (c2 :: t) l2 (by
      simpa only [List.cons_append] using h.2)

theorem noTwoSpaces_append_right :
    ∀ (l1 l2 : List Char), noTwoSpaces (l1 ++ l2) = true →
      noTwoSpaces l2 = true
  | [], _, h => h
  | c :: t, l2, h =>
    noTwoSpaces_append_right t l2 (by
      simp only [List.cons_append] at h
      exact noTwoSpaces_tail h)

theorem collapseAux_true_headNotWs :
    ∀ l : List Char, headNotWs (collapseWsAux true l) = true
  | [] => rfl
  | c :: rest => by
    unfold collapseWsAux
    by_cases hw : isJsWs c
    · simp only [hw, if_true, if_pos]
      exact collapseAux_true_headNotWs rest
    · simp only [hw, if_false, Bool.false_eq_true]
      unfold headNotWs
      simp [hw]

theorem collapse_noTwoSpaces :
    ∀ (l : List Char) (b : Bool), noTwoSpaces (collapseWsAux b l) = true
  | [], _ => rfl
  | c :: rest, b => by
    unfold collapseWsAux
    by_cases hw : isJsWs c
    · simp only [hw, if_true]
      cases b with
      | true =>
        simpa using collapse_noTwoSpaces rest true
      | false =>
        simp only [Bool.false_eq_true, if_false]
        have h1 := collapseAux_true_headNotWs rest
        have h2 := collapse_noTwoSpaces rest true
        cases hx : collapseWsAux true rest with
        | nil => rfl
        | cons d t =>
          rw [hx] at h1 h2
          have hd2 : isJsWs d = false := by
            simpa [headNotWs, Bool.not_eq_true'] using h1
          unfold noTwoSpaces
          rw [Bool.and_eq_true]
          exact ⟨by simp [hd2], h2⟩
    · simp only [hw, Bool.false_eq_true, if_false]
      have h2 := collapse_noTwoSpaces rest false
      cases hx : collapseWsAux false rest with
      | nil => rfl
      | cons d t =>
        rw [hx] at h2
        unfold noTwoSpaces
        rw [Bool.and_eq_true]
        exact ⟨by simp [hw], h2⟩

theorem collapse_mem :
    ∀ (l : List Char) (b : Bool) {c : Char}, c ∈ collapseWsAux b l →
      c = ' ' ∨ (c ∈ l ∧ isJsWs c = false)
  | [], _, c, h => absurd h (List.not_mem_nil c)
  | d :: rest, b, c, h => by
    unfold collapseWsAux at h
    by_cases hw : isJsWs d
    · rw [if_pos hw] at h
      cases b with
      | true =>
        simp only [if_true] at h
        rcases collapse_mem rest true h with h2 | ⟨h2, h3⟩
        · exact Or.inl h2
        · exact Or.inr ⟨List.mem_cons_of_mem _ h2, h3⟩
      | false =>
        simp only [Bool.false_eq_true, if_false] at h
        rcases List.mem_cons.mp h with h2 | h2
        · exact Or.inl h2
        · rcases collapse_mem rest true h2 with h3 | ⟨h3, h4⟩
          · exact Or.inl h3
          · exact Or.inr ⟨List.mem_cons_of_mem _ h3, h4⟩
    · rw [if_neg hw] at h
      rcases List.mem_cons.mp h with h2 | h2
      · subst h2
        exact Or.inr ⟨List.mem_cons_self _ _, by simpa using hw⟩
      · rcases collapse_mem rest false h2 with h3 | ⟨h3, h4⟩
        · exact Or.inl h3
        · exact Or.inr ⟨List.mem_cons_of_mem _ h3, h4⟩

theorem headNotWs_dropWhile (l : List Char) :
    headNotWs (l.dropWhile isJsWs) = true := by
  induction l with
  | nil => rfl
  | cons c t ih =>
    rw [List.dropWhile_cons]
    by_cases hw : isJsWs c
    · simp only [hw, if_true]
      exact ih
    · simp only [hw, Bool.false_eq_true, if_false]
      unfold headNotWs
      simp [hw]

theorem dropWhile_eq_self_of_headNotWs {l : List Char}
    (h : headNotWs l = true) : l.dropWhile isJsWs = l := by
  cases l with
  | nil => rfl
  | cons c t =>
    unfold headNotWs at h
    rw [List.dropWhile_cons, if_neg]
    simp only [Bool.not_eq_true'] at h
    simp [h]

theorem mem_trimChars {c : Char} {l : List Char} (h : c ∈ trimChars l) :
    c ∈ l := by
  unfold trimChars at h
  rw [List.mem_reverse] at h
  have h2 := (List.dropWhile_sublist isJsWs).subset h
  rw [List.mem_reverse] at h2
  exact (List.dropWhile_sublist isJsWs).subset h2

theorem trimChars_prefix (l : List Char) :
    trimChars l <+: l.dropWhile isJsWs := by
  unfold trimChars
  have h := List.dropWhile_suffix (l := (l.dropWhile isJsWs).reverse) isJsWs
  have h2 := List.reverse_prefix.mpr h
  simpa using h2

theorem trimChars_headNotWs (l : List Char) :
    headNotWs (trimChars l) = true := by
  obtain ⟨t, ht⟩ := trimChars_prefix l
  have hr := headNotWs_dropWhile l
  rw [← ht] at hr
  cases hx : trimChars l with
  | nil => rfl
  | cons c u =>
    rw [hx, List.cons_append] at hr
    exact hr

theorem trimChars_lastNotWs (l : List Char) :
    headNotWs (trimChars l).reverse = true := by
  unfold trimChars
  rw [List.reverse_reverse]
  exact headNotWs_dropWhile _

theorem trimChars_noTwoSpaces {l : List Char} (h : noTwoSpaces l = true) :
    noTwoSpaces (trimChars l) = true := by
  obtain ⟨t1, ht1⟩ := List.dropWhile_suffix (l := l) isJsWs
  have hdrop : noTwoSpaces (l.dropWhile isJsWs) = true :=
    noTwoSpaces_append_right t1 _ (by rw [ht1]; exact h)
  obtain ⟨t2, ht2⟩ := trimChars_prefix l
  exact noTwoSpaces_append_left _ t2 (by rw [ht2]; exact hdrop)

theorem trimChars_eq_self {l : List Char} (h1 : headNotWs l = true)
    (h2 : headNotWs l.reverse = true) : trimChars l = l := by
  unfold trimChars
  rw [dropWhile_eq_self_of_headNotWs h1, dropWhile_eq_self_of_headNotWs h2,
    List.reverse_reverse]

theorem collapse_eq_self :
    ∀ l : List Char, (∀ c ∈ l, isJsWs c = true → c = ' ') →
      noTwoSpaces l = true →
      collapseWsAux false l = l ∧
        (headNotWs l = true → collapseWsAux true l = l)
  | [], _, _ => ⟨rfl, fun _ => rfl⟩
  | c :: rest, hws, hnt => by
    have hrest := collapse_eq_self rest
      (fun d hd => hws d (List.mem_cons_of_mem _ hd)) (noTwoSpaces_tail hnt)
    by_cases hw : isJsWs c
    · have hc : c = ' ' := hws c (List.mem_cons_self _ _) hw
      have hhead : headNotWs rest = true := by
        cases rest with
        | nil => rfl
        | cons d t =>
          unfold noTwoSpaces at hnt
          rw [Bool.and_eq_true] at hnt
          have hnd := hnt.1
          simp only [hw, Bool.true_and, Bool.not_eq_true'] at hnd
          unfold headNotWs
          simp [hnd]
      constructor
      · unfold collapseWsAux
        rw [if_pos hw, if_neg (by simp : ¬(false = true)), hrest.2 hhead, hc]
      · intro hh
        unfold headNotWs at hh
        simp [hw] at hh
    · constructor
      · unfold collapseWsAux
        rw [if_neg (by simp [hw]), hrest.1]
      · intro _
        unfold collapseWsAux
        rw [if_neg (by simp [hw]), hrest.1]

theorem map_lower_id {l : List Char} (h : ∀ c ∈ l, GoodCharP c) :
    l.map jsLowerChar = l := by
  induction l with
  | nil => rfl
  | cons c t ih =>
    rw [List.map_cons, goodChar_lower_fix (h c (List.mem_cons_self _ _)),
      ih (fun d hd => h d (List.mem_cons_of_mem _ hd))]

theorem nfdList_id {l : List Char} (h : ∀ c ∈ l, GoodCharP c) :
    nfdList l = l := by
  induction l with
  | nil => rfl
  | cons c t ih =>
    unfold nfdList
    rw [List.flatMap_cons, goodChar_nfd_fix (h c (List.mem_cons_self _ _))]
    have ih2 := ih (fun d hd => h d (List.mem_cons_of_mem _ hd))
    unfold nfdList at ih2
    rw [ih2]
    rfl

theorem filter_marks_id {l : List Char} (h : ∀ c ∈ l, GoodCharP c) :
    l.filter (fun c => !isCombiningMark c) = l := by
  rw [List.filter_eq_self]
  intro a ha
  rw [goodChar_not_mark (h a ha)]
  rfl

theorem filter_keep_id {l : List Char} (h : ∀ c ∈ l, GoodCharP c) :
    l.filter keepChar = l := by
  rw [List.filter_eq_self]
  intro a ha
  exact goodChar_keep (h a ha)

theorem normPost_chars (s : String) : ∀ c ∈ (normPost s).data, GoodCharP c := by
  intro c hc
  have h1 : c ∈ collapseWs (((nfdList (s.data.map jsLowerChar)).filter
      (fun c => !isCombiningMark c)).filter keepChar) := mem_trimChars hc
  rcases collapse_mem _ _ h1 with hsp | ⟨hmem, hnw⟩
  · subst hsp
    right; right; right; right
    rfl
  · have hk := (List.mem_filter.mp hmem).2
    exact good_of_keep_notWs hk hnw

theorem normPost_noTwo (s : String) : noTwoSpaces (normPost s).data = true :=
  trimChars_noTwoSpaces (collapse_noTwoSpaces _ false)

theorem normPost_head (s : String) : headNotWs (normPost s).data = true :=
  trimChars_headNotWs _

theorem normPost_last (s : String) :
    headNotWs (normPost s).data.reverse = true :=
  trimChars_lastNotWs _

theorem string_mk_data (y : String) : String.mk y.data = y := rfl

theorem normPost_eq_self (y : String) (hchars : ∀ c ∈ y.data, GoodCharP c)
    (hnt : noTwoSpaces y.data = true) (hh : headNotWs y.data = true)
    (hl : headNotWs y.data.reverse = true) : normPost y = y := by
  unfold normPost
  rw [map_lower_id hchars, nfdList_id hchars, filter_marks_id hchars,
    filter_keep_id hchars]
  have hcol : collapseWs y.data = y.data :=
    (collapse_eq_self y.data
      (fun c hc hw => goodChar_ws_space (hchars c hc) hw) hnt).1
  rw [show collapseWs y.data = y.data from hcol, trimChars_eq_self hh hl,
    string_mk_data]

theorem matchPrefix_none_of_head {p c : Char} {ps t : List Char} (h : ¬p = c) :
    matchPrefix (p :: ps) (c :: t) = none := by
  unfold matchPrefix
  rw [if_neg h]

theorem goodChar_ne {c : Char} (h : GoodCharP c) {d : Char}
    (hd : ¬GoodCharP d) : ¬d = c := by
  intro hdc
  exact hd (hdc ▸ h)

theorem endsWithExt_dot {e l : List Char} (h : endsWithExt e l = true) :
    ∃ c ∈ l, jsLowerChar c = '.' := by
  unfold endsWithExt at h
  rw [decide_eq_true_eq] at h
  have hpre := List.isPrefixOf_iff_prefix.mp h
  have hdot : '.' ∈ (('.' :: e).map jsLowerChar).reverse := by
    rw [List.mem_reverse]
    exact List.mem_map.mpr ⟨'.', List.mem_cons_self _ _, rfl⟩
  have hmem := hpre.subset hdot
  rw [List.mem_reverse] at hmem
  obtain ⟨c, hc, hfc⟩ := List.mem_map.mp hmem
  exact ⟨c, hc, hfc⟩

theorem stripExtOnce_id {exts : List (List Char)} {l : List Char}
    (h : ∀ c ∈ l, GoodCharP c) : stripExtOnce exts l = l := by
  unfold stripExtOnce
  have hfind : exts.find? (fun e => endsWithExt e l) = none := by
    rw [List.find?_eq_none]
    intro e _
    rcases hb : endsWithExt e l with _ | _
    · simp
    · exfalso
      obtain ⟨c, hc, hfc⟩ := endsWithExt_dot hb
      have hg := h c hc
      rw [goodChar_lower_fix hg] at hfc
      rw [hfc] at hg
      exact absurd hg (by decide)
  rw [hfind]

theorem removeBraceEq_id :
    ∀ l : List Char, (∀ c ∈ l, GoodCharP c) → removeBraceEq l = l
  | [], _ => rfl
  | [c], h => by
    unfold removeBraceEq
    rw [if_neg]
    intro hc
    have hg := h c (List.mem_cons_self _ _)
    rw [hc] at hg
    exact absurd hg (by decide)
  | c1 :: c2 :: rest, h => by
    have hc1 : GoodCharP c1 := h c1 (List.mem_cons_self _ _)
    have hn1 : ¬(((c1 = '\x7b' && c2 = '\x7b') ||
        (c1 = '\x7d' && c2 = '\x7d')) = true) := by
      rw [Bool.or_eq_true, Bool.and_eq_true, Bool.and_eq_true,
        decide_eq_true_eq, decide_eq_true_eq, decide_eq_true_eq,
        decide_eq_true_eq]
      rintro (⟨ha, _⟩ | ⟨ha, _⟩) <;>
        (rw [ha] at hc1; exact absurd hc1 (by decide))
    have hn2 : ¬(c1 = '=') := by
      intro hc
      rw [hc] at hc1
      exact absurd hc1 (by decide)
    unfold removeBraceEq
    rw [if_neg hn1, if_neg hn2,
      removeBraceEq_id (c2 :: rest) (fun d hd => h d (List.mem_cons_of_mem _ hd))]

theorem data_eq_nil_iff (y : String) (h : y.data = []) : y = "" := by
  cases y
  simp_all

theorem clean_eq_self (y : String) (hne : y ≠ "") (hdash : y ≠ "-")
    (hund : y ≠ "undefined") (hchars : ∀ c ∈ y.data, GoodCharP c)
    (hh : headNotWs y.data = true) (hl : headNotWs y.data.reverse = true) :
    cleanDisplayName (some y) = y := by
  obtain ⟨c, t, hdata⟩ : ∃ c t, y.data = c :: t := by
    cases hy : y.data with
    | nil => exact absurd (data_eq_nil_iff y hy) hne
    | cons c t => exact ⟨c, t, rfl⟩
  have hgc : GoodCharP c := hchars c (by rw [hdata]; exact List.mem_cons_self _ _)
  have hcne : ¬('\x7b' = c) := by
    intro hc
    rw [← hc] at hgc
    exact absurd hgc (by decide)
  have h1 : stripUtmPrefix y.data = y.data := by
    unfold stripUtmPrefix
    rw [hdata,
      show ("\x7b\x7badsutm_content=".data) =
        '\x7b' :: "\x7badsutm_content=".data from rfl,
      matchPrefix_none_of_head hcne]
  have h2 : stripAdsetName y.data = y.data := by
    unfold stripAdsetName
    rw [if_neg]
    intro heq
    rw [hdata,
      show ("\x7b\x7badset.name\x7d\x7d".data) =
        '\x7b' :: "\x7badset.name\x7d\x7d".data from rfl] at heq
    exact hcne (by injection heq with h0 _; rw [h0])
  have h3 : stripLeadingBraceToken y.data = y.data := by
    unfold stripLeadingBraceToken
    rw [hdata, matchPrefix_none_of_head hcne]
  have h4 : ∀ exts, stripExtOnce exts y.data = y.data :=
    fun _ => stripExtOnce_id hchars
  have h6 : removeBraceEq y.data = y.data := removeBraceEq_id y.data hchars
  have h7 : trimChars y.data = y.data := trimChars_eq_self hh hl
  show (if y = "" then "" else _) = y
  rw [if_neg hne]
  simp only [h1, h2, h3, h4, h6, h7, string_mk_data]
  rw [if_neg]
  rintro (hcontra | hcontra | hcontra)
  · exact hdash hcontra
  · exact hne hcontra
  · exact hund hcontra

/-- C4 (amended): normalization is idempotent for every input whose
normalized form is not `"-"` and not `"undefined"` (on those two the
second pass collides with `cleanDisplayName`'s sentinel and yields
`""`, see `C4_counterexample`). -/
theorem C4_idempotent_unless_sentinel (x : Option String)
    (hd : normalizeAdName x ≠ "-") (hu : normalizeAdName x ≠ "undefined") :
    normalizeAdName (some (normalizeAdName x)) = normalizeAdName x := by
  by_cases hzero : cleanDisplayName x = "" ∨ cleanDisplayName x = "[Sin nombre]"
  · have hx : normalizeAdName x = "" := by
      unfold normalizeAdName
      rw [if_pos hzero]
    rw [hx]
    rfl
  · have hx : normalizeAdName x = normPost (cleanDisplayName x) := by
      unfold normalizeAdName
      rw [if_neg hzero]
    have hchars := normPost_chars (cleanDisplayName x)
    have hnt := normPost_noTwo (cleanDisplayName x)
    have hhd := normPost_head (cleanDisplayName x)
    have hlst := normPost_last (cleanDisplayName x)
    rw [← hx] at hchars hnt hhd hlst
    by_cases hempty : normalizeAdName x = ""
    · rw [hempty]
      rfl
    · have hclean : cleanDisplayName (some (normalizeAdName x)) =
          normalizeAdName x :=
        clean_eq_self _ hempty hd hu hchars hhd hlst
      show (if cleanDisplayName (some (normalizeAdName x)) = "" ∨
          cleanDisplayName (some (normalizeAdName x)) = "[Sin nombre]" then ""
          else normPost (cleanDisplayName (some (normalizeAdName x)))) =
        normalizeAdName x
      rw [hclean, if_neg, normPost_eq_self _ hchars hnt hhd hlst]
      rintro (hcontra | hcontra)
      · exact hempty hcontra
      · rw [hcontra] at hchars
        have := hchars '[' (by decide)
        exact absurd this (by decide)

/-- Witness for the amended C4 at a concrete input. -/
theorem C4_witness :
    normalizeAdName (some (normalizeAdName (some "Café  Élite!!"))) =
      normalizeAdName (some "Café  Élite!!") :=
  C4_idempotent_unless_sentinel (some "Café  Élite!!") (by decide) (by decide)

end Looker
